import Mathlib

/-!
Verification development for the match-3 rules engine of the v-ball
repository.  The TypeScript sources are shallowly embedded: the pure
matching utilities (`findMatches`, `hasValidMoves` from
`src/utils/matching.ts`, line-bomb revision) become Lean functions over a
grid of `Option TileType`; the `Board` controller (`src/game/Board.ts`)
becomes an explicit state-passing step function over an `EngineState`,
with randomness supplied by an oracle stream and the asynchronous
animation layer erased (it never touches logical state).  Recursions that
are unbounded in the source (chained detonations, cascade re-matching)
take an explicit fuel parameter and return `Option`; `none` models a
non-terminating / fuel-exhausted run.
-/

set_option maxHeartbeats 4000000
set_option maxRecDepth 4000

namespace VBall

/-- `TileType` enum from `src/types/index.ts` (bomb revision):
seven regular colors plus `LineBomb` and `ColorBomb`. -/
inductive TileType where
  | red | blue | green | yellow | purple | orange | pink
  | lineBomb | colorBomb
deriving DecidableEq, Repr

/-- Number of regular (matchable) tile colors (`TILE_TYPE_COUNT`). -/
def TILE_TYPE_COUNT : Nat := 7

def GRID_COLS : Nat := 8
def GRID_ROWS : Nat := 8
def MIN_MATCH : Nat := 3
def LINE_BOMB_MATCH : Nat := 4
def COLOR_BOMB_MATCH : Nat := 5
def POINTS_PER_TILE : Nat := 10
def LINE_BOMB_BONUS : Nat := 20
def COLOR_BOMB_BONUS : Nat := 50

/-- Match direction ("horizontal" / "vertical" strings in TS). -/
inductive Direction where
  | horizontal | vertical
deriving DecidableEq, Repr

/-- `MatchGroup` record from `src/types/index.ts`. -/
structure MatchGroup where
  positions : List (Nat × Nat)
  length : Nat
  direction : Direction
deriving DecidableEq, Repr

/-- The `(TileType | null)[][]` grid consumed by the matching utilities,
as a total function; all reads the source performs are bounds-guarded
(`readT`), so values outside the 8x8 window are irrelevant. -/
def TGrid : Type := Nat → Nat → Option TileType

/-- Bounds-guarded grid read: mirrors the TS pattern
`c < GRID_COLS ? grid[r][c] : null` (and JS out-of-range indexing
returning `undefined`). -/
def readT (g : TGrid) (r c : Nat) : Option TileType :=
  if r < GRID_ROWS ∧ c < GRID_COLS then g r c else none

/-- `isMatchable` from `matching.ts`: regular colors and line bombs
participate in matching, color bombs and empty cells do not. -/
def isMatchable : Option TileType → Bool
  | none => false
  | some TileType.colorBomb => false
  | some _ => true

/-- One step of the run-scanning loop body of `findMatches`: given the
current cell and run state, decide whether the run continues and the
updated effective run color.  Mirrors the `continues` computation. -/
def scanStep (cell startCell : Option TileType) (runColor : Option TileType) :
    Bool × Option TileType :=
  if isMatchable cell && isMatchable startCell then
    if cell == some TileType.lineBomb then (true, runColor)
    else
      match runColor with
      | none => (true, cell)
      | some rc => if cell == some rc then (true, runColor) else (false, runColor)
  else (false, runColor)

/-- The scanning loop of `findMatches` over one line, accumulating
qualifying runs as `(runStart, runLength)` pairs (the TS builds the
position list inline; the conversion to positions happens in
`findMatches` below).  `cs` is the remaining list of loop indices
(`c = 1 .. len` in the source). -/
def scanAux (read : Nat → Option TileType) :
    List Nat → Nat → Option TileType → List (Nat × Nat) → List (Nat × Nat)
  | [], _, _, acc => acc
  | c :: rest, runStart, runColor, acc =>
    let step := scanStep (read c) (read runStart) runColor
    if step.1 then
      scanAux read rest runStart step.2 acc
    else
      let runLen := c - runStart
      let acc' :=
        if decide (MIN_MATCH ≤ runLen) && isMatchable (read runStart) then
          acc ++ [(runStart, runLen)]
        else acc
      let runColor' :=
        if isMatchable (read c) && !(read c == some TileType.lineBomb) then read c
        else none
      scanAux read rest c runColor' acc'

/-- Initial `runColor` of a line scan: the first cell fixes the color if
it is matchable and not a wildcard line bomb. -/
def initRunColor (read : Nat → Option TileType) : Option TileType :=
  if isMatchable (read 0) && !(read 0 == some TileType.lineBomb) then read 0
  else none

/-- Scan one full line of length `len` (the loop `for c = 1; c <= len`). -/
def scanLine (read : Nat → Option TileType) (len : Nat) : List (Nat × Nat) :=
  scanAux read (List.range' 1 len) 0 (initRunColor read) []

/-- `findMatches` from `matching.ts` (line-bomb revision): horizontal
runs row by row, then vertical runs column by column; each qualifying
run of length ≥ `MIN_MATCH` becomes one `MatchGroup`. -/
def findMatches (g : TGrid) : List MatchGroup :=
  ((List.range GRID_ROWS).flatMap fun r =>
    (scanLine (fun c => readT g r c) GRID_COLS).map fun rl =>
      { positions := (List.range' rl.1 rl.2).map fun k => (r, k)
        length := rl.2
        direction := Direction.horizontal }) ++
  ((List.range GRID_COLS).flatMap fun c =>
    (scanLine (fun r => readT g r c) GRID_ROWS).map fun rl =>
      { positions := (List.range' rl.1 rl.2).map fun k => (k, c)
        length := rl.2
        direction := Direction.vertical })

/-- The private `swap` helper of `matching.ts`: pure index exchange. -/
def swap (g : TGrid) (r1 c1 r2 c2 : Nat) : TGrid := fun r c =>
  if r = r1 ∧ c = c1 then g r2 c2
  else if r = r2 ∧ c = c2 then g r1 c1
  else g r c

/-- The body of `hasValidMoves` for one cell `(r, c)`, as a Boolean: the
imperative scan returns `true` as soon as this fires for some cell (the
early-`return` loop is the `List.any` in `hasValidMoves`).  Mirrors the
source exactly, including the `continue` that skips BOTH probes of a
cell whose RIGHT neighbor is a color bomb. -/
def cellCheck (g : TGrid) (r c : Nat) : Bool :=
  if readT g r c == some TileType.colorBomb then
    -- Color bomb can always be swapped with a (non-empty) neighbor
    (decide (c + 1 < GRID_COLS) && !(readT g r (c+1) == none)) ||
    (decide (r + 1 < GRID_ROWS) && !(readT g (r+1) c == none)) ||
    (decide (1 ≤ c) && !(readT g r (c-1) == none)) ||
    (decide (1 ≤ r) && !(readT g (r-1) c == none))
  else if decide (c + 1 < GRID_COLS) && (readT g r (c+1) == some TileType.colorBomb) then
    -- `continue`: neither the right-probe nor the down-probe runs
    false
  else
    -- Try swap right, then try swap down (the grid is restored after
    -- each probe, so each probe sees the original grid)
    (decide (c + 1 < GRID_COLS) && !(findMatches (swap g r c r (c+1)) == [])) ||
    (decide (r + 1 < GRID_ROWS) && !(readT g (r+1) c == some TileType.colorBomb) &&
      !(findMatches (swap g r c (r+1) c) == []))

/-- Row-major list of all 64 cell coordinates. -/
def allCells : List (Nat × Nat) :=
  (List.range GRID_ROWS).flatMap fun r => (List.range GRID_COLS).map fun c => (r, c)

/-- `hasValidMoves` from `matching.ts` (line-bomb revision): the nested
for-loops with early `return true` are modeled as `List.any` over the
row-major cell order. -/
def hasValidMoves (g : TGrid) : Bool :=
  allCells.any fun p => cellCheck g p.1 p.2

end VBall

namespace VBall

/-! ## Board controller embedding (`src/game/Board.ts`, bomb revision)

The source keeps two mirrored structures (`this.grid : (TileType|null)[][]`
and `this.tiles : (Tile|null)[][]`, the tile objects carrying the line
bomb metadata `bonusOrientation` / `baseType`).  They are updated
together at every mutation site, so the embedding uses a single board of
`Option TileObj`; the logical `grid` entry is the `ttype` projection
(`gval`). -/

/-- The per-tile state of a `Tile` object that the engine reads:
its `tileType` plus the line-bomb metadata. -/
structure TileObj where
  ttype : TileType
  bonusOrientation : Option Direction
  baseType : Option TileType
deriving DecidableEq, Repr

/-- The board as row-major data (`this.tiles` and `this.grid` fused:
they are mutated together at every site, the tile object carrying the
grid value as its `ttype`). -/
def BGrid : Type := List (List (Option TileObj))

instance : DecidableEq BGrid := by unfold BGrid; infer_instance

abbrev Pos : Type := Nat × Nat

/-- Board read `this.tiles[r][c]`; a missing row or column yields `none`
(JS `undefined`; the only place a row index can be out of range is the
entry point, where the source would throw -- handled there). -/
def boardRead (b : BGrid) (r c : Nat) : Option TileObj :=
  (b.getD r []).getD c none

/-- The logical `this.grid[r][c]` entry. -/
def gval (b : BGrid) (r c : Nat) : Option TileType :=
  (boardRead b r c).map TileObj.ttype

/-- Point update of the board (both mirrored arrays at once). -/
def setCell (b : BGrid) (r c : Nat) (v : Option TileObj) : BGrid :=
  b.set r ((b.getD r []).set c v)

/-- `swapInGrid` plus the accompanying `this.tiles` exchange
(`tmp = grid[a]; grid[a] = grid[b]; grid[b] = tmp`). -/
def swapB (b : BGrid) (p q : Pos) : BGrid :=
  let vp := boardRead b p.1 p.2
  let vq := boardRead b q.1 q.2
  setCell (setCell b p.1 p.2 vq) q.1 q.2 vp

/-- `buildMatchableGrid`: line bombs with a recorded base type are seen
by the matcher as that color; everything else is the raw grid value. -/
def buildMatchableGrid (b : BGrid) : TGrid := fun r c =>
  match boardRead b r c with
  | some t =>
      if t.ttype == TileType.lineBomb && !(t.baseType == none) then t.baseType
      else some t.ttype
  | none => none

/-- Full engine state: board, the `ScoreManager` fields (`_score`,
`_combo`), the oracle cursor for random draws, and the controller flags
(`busy`, `InputHandler.enabled`, and whether the game-over overlay was
shown). -/
structure EngineState where
  board : BGrid
  score : Nat
  combo : Nat
  rng : Nat
  busy : Bool
  inputEnabled : Bool
  gameOver : Bool
deriving DecidableEq

/-- An all-empty 8x8 board. -/
def emptyBoard : BGrid :=
  List.replicate GRID_ROWS (List.replicate GRID_COLS none)

instance : Inhabited EngineState :=
  ⟨⟨emptyBoard, 0, 0, 0, false, true, false⟩⟩

/-- `COMBO_MULTIPLIER = 1.5`, as an exact rational. -/
def COMBO_MULTIPLIER : ℚ := 3 / 2

/-- `Math.round(tileCount * POINTS_PER_TILE * multiplier)` where
`multiplier = 1.5 ^ combo`.  The exact value of the product is
`tileCount·10·3^combo / 2^combo`, and JS `Math.round` (round half
toward +∞) of a non-negative `a / b` is `⌊(2a + b) / 2b⌋`, here in
natural floor division.  `matchPoints_eq_round` below proves this equal
to Mathlib's `round` of the exact rational, which is what the float
computation yields at every reachable magnitude. -/
def matchPoints (tileCount : Nat) (combo : Nat) : Nat :=
  (2 * (tileCount * POINTS_PER_TILE) * 3 ^ combo + 2 ^ combo) / 2 ^ (combo + 1)

/-- `ScoreManager.addMatch`: award points for `tileCount` matched tiles
at the current combo, then increment the combo. -/
def addMatch (st : EngineState) (tileCount : Nat) : EngineState :=
  { st with score := st.score + matchPoints tileCount st.combo, combo := st.combo + 1 }

/-- `ScoreManager.resetCombo`. -/
def resetCombo (st : EngineState) : EngineState := { st with combo := 0 }

def STARTING_COLORS : Nat := 4
def POINTS_PER_NEW_COLOR : Nat := 3000

/-- `ScoreManager.activeColors`: colors in play grow with score. -/
def activeColors (st : EngineState) : Nat :=
  min TILE_TYPE_COUNT (STARTING_COLORS + st.score / POINTS_PER_NEW_COLOR)

/-- Randomness oracle: `tileIdx` feeds the refill draws, `pickIdx` feeds
`pickRandomColorOnBoard`.  Each draw consumes one cursor step. -/
structure Oracle where
  tileIdx : Nat → Nat
  pickIdx : Nat → Nat

/-- Enum-order decoding of a regular color index. -/
def tileOfIdx : Nat → TileType
  | 0 => TileType.red
  | 1 => TileType.blue
  | 2 => TileType.green
  | 3 => TileType.yellow
  | 4 => TileType.purple
  | 5 => TileType.orange
  | _ => TileType.pink

/-- Modelled from the spec: the authoritative revision of
`src/utils/random.ts` (whose `randomTileType(activeColors)` the Board
calls) is not in the sources; per the spec, refill tiles are "freshly
generated tiles drawn from the currently active color set (excluding
bomb types)".  The oracle's raw draw is reduced into the active range. -/
def randomTileType (o : Oracle) (rng : Nat) (active : Nat) : TileType :=
  tileOfIdx (o.tileIdx rng % active)

/-- Set a board cell to empty (tile removed from both arrays). -/
def clearCellAt (st : EngineState) (r c : Nat) : EngineState :=
  { st with board := setCell st.board r c none }

/-- `destroySingleTile`: remove one tile if present (no score). -/
def destroySingleTile (st : EngineState) (p : Pos) : EngineState :=
  match boardRead st.board p.1 p.2 with
  | none => st
  | some _ => clearCellAt st p.1 p.2

/-- Is the cell currently a bomb tile (line or color)? -/
def isBombAt (b : BGrid) (p : Pos) : Bool :=
  match boardRead b p.1 p.2 with
  | some t => t.ttype == TileType.lineBomb || t.ttype == TileType.colorBomb
  | none => false

/-- The shared destruction sweep of both detonators: non-bomb targets are
removed; bombs caught in the blast are left for the chain loop. -/
def clearIfNotBomb (st : EngineState) (t : Pos) : EngineState :=
  match boardRead st.board t.1 t.2 with
  | some tt =>
      if tt.ttype ≠ TileType.lineBomb ∧ tt.ttype ≠ TileType.colorBomb then
        clearCellAt st t.1 t.2
      else st
  | none => st

/-- `pickRandomColorOnBoard`: the regular colors present, in scan order
(JS `Set` iterates in insertion order), with the oracle choosing the
index; consumes one random draw unless the board has no regular color. -/
def colorsOnBoard (b : BGrid) : List TileType :=
  allCells.foldl
    (fun acc p =>
      match gval b p.1 p.2 with
      | some t =>
          if t ≠ TileType.lineBomb ∧ t ≠ TileType.colorBomb ∧ t ∉ acc then acc ++ [t]
          else acc
      | none => acc)
    []

def pickRandomColorOnBoard (o : Oracle) (st : EngineState) : Option TileType × EngineState :=
  let colors := colorsOnBoard st.board
  if colors = [] then (none, st)
  else (colors.get? (o.pickIdx st.rng % colors.length), { st with rng := st.rng + 1 })

/-- `detonateEntireBoard` (two color bombs swapped together): count the
occupied cells, clear everything, award the count. -/
def detonateEntireBoard (st : EngineState) : EngineState :=
  let count := allCells.countP fun p => boardRead st.board p.1 p.2 ≠ none
  addMatch { st with board := emptyBoard } count

/-- The three detonation routines (`detonateLineBomb`,
`detonateColorBomb`, and the chain loop their bodies share verbatim)
form one mutual recursion in the source, unbounded except by the board
contents.  They are embedded as one fuel-structural function over a job
tag so that the kernel can evaluate concrete detonations; every
recursive call of the source decrements the fuel once.  `none` = fuel
exhausted. -/
inductive DetJob where
  | line (pos : Pos)
  | color (targetType : TileType) (sourcePos : Option Pos)
  | chain (bombs : List Pos)

/-- Body of `detonateLineBomb` (job `.line`): destroy the bomb cell,
award `addMatch(LINE_BOMB_BONUS)`, remove the non-bomb cells of its
row/column, then chain-detonate the bombs caught.  Body of
`detonateColorBomb` (job `.color`): destroy every occupied cell whose
grid value is the target type, award `targets.length +
COLOR_BOMB_BONUS`, then chain-detonate bombs caught (the triggering
bomb itself is left for its caller).  Job `.chain` is the shared chain
loop: line bombs re-detonate; a color bomb detonates on a random color
present and is then removed via `destroySingleTile`. -/
def detonate (o : Oracle) : Nat → DetJob → EngineState → Option EngineState
  | 0, _, _ => none
  | f + 1, DetJob.line pos, st =>
    (match boardRead st.board pos.1 pos.2 with
     | none => some st
     | some tile =>
       let orientation := tile.bonusOrientation.getD Direction.horizontal
       let st1 := addMatch (clearCellAt st pos.1 pos.2) LINE_BOMB_BONUS
       let targets : List Pos :=
         match orientation with
         | Direction.horizontal =>
             ((List.range GRID_COLS).filter fun c =>
               c ≠ pos.2 ∧ boardRead st1.board pos.1 c ≠ none).map fun c => (pos.1, c)
         | Direction.vertical =>
             ((List.range GRID_ROWS).filter fun r =>
               r ≠ pos.1 ∧ boardRead st1.board r pos.2 ≠ none).map fun r => (r, pos.2)
       let chainedBombs := targets.filter fun t => isBombAt st1.board t
       let st2 := targets.foldl clearIfNotBomb st1
       detonate o f (DetJob.chain chainedBombs) st2)
  | f + 1, DetJob.color targetType _sourcePos, st =>
    (let targets := allCells.filter fun p => gval st.board p.1 p.2 == some targetType
     if targets = [] then some st
     else
       let st1 := addMatch st (targets.length + COLOR_BOMB_BONUS)
       let chainedBombs := targets.filter fun t => isBombAt st1.board t
       let st2 := targets.foldl clearIfNotBomb st1
       detonate o f (DetJob.chain chainedBombs) st2)
  | _ + 1, DetJob.chain [], st => some st
  | f + 1, DetJob.chain (bp :: rest), st =>
    (match boardRead st.board bp.1 bp.2 with
     | none => detonate o f (DetJob.chain rest) st
     | some t =>
       if t.ttype == TileType.lineBomb then
         match detonate o f (DetJob.line bp) st with
         | none => none
         | some st' => detonate o f (DetJob.chain rest) st'
       else if t.ttype == TileType.colorBomb then
         match (pickRandomColorOnBoard o st).1 with
         | some c =>
           match detonate o f (DetJob.color c (some bp)) (pickRandomColorOnBoard o st).2 with
           | none => none
           | some st' => detonate o f (DetJob.chain rest) (destroySingleTile st' bp)
         | none =>
           detonate o f (DetJob.chain rest)
             (destroySingleTile (pickRandomColorOnBoard o st).2 bp)
       else detonate o f (DetJob.chain rest) st)

/-- `detonateLineBomb` entry point (source function name). -/
def detonateLineBomb (o : Oracle) (fuel : Nat) (st : EngineState) (pos : Pos) :
    Option EngineState :=
  detonate o fuel (DetJob.line pos) st

/-- `detonateColorBomb` entry point (source function name). -/
def detonateColorBomb (o : Oracle) (fuel : Nat) (st : EngineState)
    (targetType : TileType) (sourcePos : Option Pos) : Option EngineState :=
  detonate o fuel (DetJob.color targetType sourcePos) st

end VBall

namespace VBall

/-- One column of `cascade`: scan rows bottom-up keeping the
lowest-empty-row cursor; an occupied cell above it falls down to it. -/
def cascadeCol (b : BGrid) (c : Nat) : BGrid :=
  ((List.range GRID_ROWS).reverse.foldl
    (fun (acc : BGrid × Nat) r =>
      match boardRead acc.1 r c with
      | none => acc
      | some tile =>
          if r ≠ acc.2 then
            (setCell (setCell acc.1 acc.2 c (some tile)) r c none, acc.2 - 1)
          else (acc.1, acc.2 - 1))
    (b, GRID_ROWS - 1)).1

/-- `cascade`: gravity compaction, column by column. -/
def cascade (st : EngineState) : EngineState :=
  { st with board := (List.range GRID_COLS).foldl cascadeCol st.board }

/-- One cell of `fillEmpty`: an empty cell receives a fresh random tile
from the active color set, consuming one oracle draw. -/
def fillCell (o : Oracle) (active : Nat) (c : Nat) (s : EngineState) (r : Nat) :
    EngineState :=
  match boardRead s.board r c with
  | some _ => s
  | none =>
      let t := randomTileType o s.rng active
      { s with
          board := setCell s.board r c (some ⟨t, none, none⟩)
          rng := s.rng + 1 }

/-- `fillEmpty`: per column, bottom-up, every empty cell receives a fresh
random tile from the active color set. -/
def fillEmpty (o : Oracle) (st : EngineState) : EngineState :=
  let active := activeColors st
  (List.range GRID_COLS).foldl
    (fun s c => (List.range GRID_ROWS).reverse.foldl (fillCell o active c) s)
    st

/-- The spawn record built by `determineBonuses`. -/
structure Bonus where
  row : Nat
  col : Nat
  btype : TileType
  orientation : Option Direction
  baseType : Option TileType
deriving DecidableEq, Repr

/-- `pickBonusPosition`: prefer the swap destination `b`, then the swap
origin `a`, then search outward (with wrap-around) from the middle of
the run; cells already reserved by an earlier group are skipped. -/
def pickBonusPosition (m : MatchGroup) (swapPositions : Option (Pos × Pos))
    (usedPositions : List Pos) : Option Pos :=
  let fallback : Option Pos :=
    let len := m.positions.length
    let mid := len / 2
    (List.range len).findSome? fun off =>
      match m.positions.get? ((mid + off) % len) with
      | some p => if p ∉ usedPositions then some p else none
      | none => none
  match swapPositions with
  | some ab =>
      if ab.2 ∈ m.positions ∧ ab.2 ∉ usedPositions then some ab.2
      else if ab.1 ∈ m.positions ∧ ab.1 ∉ usedPositions then some ab.1
      else fallback
  | none => fallback

/-- `determineBonuses`: each group of length ≥ 4 claims a spawn cell
(reserved against later groups); length ≥ 5 yields a Color Bomb, length
4 a Line Bomb oriented along the run, its base type resolved through a
wildcard line bomb at the sampled first position. -/
def determineBonuses (st : EngineState) (matchGroups : List MatchGroup)
    (swapPositions : Option (Pos × Pos)) : List Bonus :=
  (matchGroups.foldl
    (fun (acc : List Bonus × List Pos) m =>
      if m.length < LINE_BOMB_MATCH then acc
      else
        match pickBonusPosition m swapPositions acc.2 with
        | none => acc
        | some spawnPos =>
            let used' := acc.2 ++ [spawnPos]
            let sampleType : Option TileType :=
              match m.positions.head? with
              | some sp =>
                  (match boardRead st.board sp.1 sp.2 with
                   | some t =>
                       if t.ttype == TileType.lineBomb && !(t.baseType == none) then
                         t.baseType
                       else some t.ttype
                   | none => none)
              | none => none
            if COLOR_BOMB_MATCH ≤ m.length then
              (acc.1 ++ [⟨spawnPos.1, spawnPos.2, TileType.colorBomb, none, none⟩], used')
            else
              (acc.1 ++
                [⟨spawnPos.1, spawnPos.2, TileType.lineBomb, some m.direction, sampleType⟩],
               used'))
    ([], [])).1

/-- The de-duplicated position list (`destroySet` / `allPositions`). -/
def dedupPositions (matchGroups : List MatchGroup) : List Pos :=
  matchGroups.foldl
    (fun acc m => m.positions.foldl (fun a p => if p ∈ a then a else a ++ [p]) acc)
    []

/-- The removal step of `processMatches`: a matched cell is cleared
unless it is a reserved bonus cell or holds a line bomb (kept for its
separate detonation). -/
def removeMatched (bonusPosKeys : List Pos) (s : EngineState) (p : Pos) : EngineState :=
  if p ∈ bonusPosKeys then s
  else
    match boardRead s.board p.1 p.2 with
    | some t => if t.ttype == TileType.lineBomb then s else clearCellAt s p.1 p.2
    | none => clearCellAt s p.1 p.2

/-- The bonus-spawn step: place the bonus tile in both arrays. -/
def spawnBonus (s : EngineState) (b : Bonus) : EngineState :=
  { s with board := setCell s.board b.row b.col (some ⟨b.btype, b.orientation, b.baseType⟩) }

/-- Detonating one line bomb caught in a match, unless a chained
detonation already removed it. -/
def triggerLineBomb (o : Oracle) (f : Nat) (s : EngineState) (bp : Pos) :
    Option EngineState :=
  match boardRead s.board bp.1 bp.2 with
  | none => some s
  | some _ => detonateLineBomb o f s bp

/-- `processMatches` with explicit fuel for the cascade re-match
recursion: score the de-duplicated positions, reserve and later spawn
bonuses, remove matched cells (bonus cells and line bombs excepted),
detonate the line bombs caught in the match, cascade, refill, and
recurse while the rescan finds new groups. -/
def processMatches (o : Oracle) :
    Nat → EngineState → List MatchGroup → Option (Pos × Pos) → Option EngineState
  | 0, _, _, _ => none
  | f + 1, st, matchGroups, swapPositions =>
    let allPositions := dedupPositions matchGroups
    let bonuses := determineBonuses st matchGroups swapPositions
    let st1 := addMatch st allPositions.length
    let bonusPosKeys : List Pos := bonuses.map fun b => (b.row, b.col)
    let triggeredBombs := allPositions.filter fun p =>
      match boardRead st1.board p.1 p.2 with
      | some t => t.ttype == TileType.lineBomb
      | none => false
    let st2 := allPositions.foldl (removeMatched bonusPosKeys) st1
    let st3? := triggeredBombs.foldlM (triggerLineBomb o f) st2
    match st3? with
    | none => none
    | some st3 =>
      let st4 := bonuses.foldl spawnBonus st3
      let st5 := fillEmpty o (cascade st4)
      let newMatches := findMatches (buildMatchableGrid st5.board)
      if newMatches = [] then some st5
      else processMatches o f st5 newMatches none

/-- End of a handler run: clear the busy flag, re-enable input. -/
def reEnable (st : EngineState) : EngineState :=
  { st with busy := false, inputEnabled := true }

/-- The move-validator check ending every resolution: no valid move
left shows the game-over overlay and returns WITHOUT clearing the busy
flag or re-enabling input; otherwise the controller returns to Idle. -/
def finishResolution (st : EngineState) : Option EngineState :=
  if !(hasValidMoves (buildMatchableGrid st.board)) then
    some { st with gameOver := true }
  else some (reEnable st)

/-- Cascade, refill and chain-rescan shared by the bomb-swap path. -/
def afterBombPath (o : Oracle) (fuel : Nat) (st : EngineState) :
    Option EngineState :=
  match (if findMatches (buildMatchableGrid (fillEmpty o (cascade st)).board) = [] then
      some (fillEmpty o (cascade st))
    else
      processMatches o fuel (fillEmpty o (cascade st))
        (findMatches (buildMatchableGrid (fillEmpty o (cascade st)).board)) none) with
  | none => none
  | some st4 => finishResolution st4

/-- The Color Bomb swap path of `onSwapRequest`: swap, reset combo,
then detonate (whole board for two color bombs; both tiles for color
bomb + line bomb; the other tile's color otherwise, the bomb itself
destroyed afterwards), then cascade/refill/re-scan and validate. -/
def bombSwapPath (o : Oracle) (fuel : Nat) (st : EngineState) (a b : Pos)
    (aIsColorBomb bIsColorBomb : Bool) : Option EngineState :=
  match (if aIsColorBomb && bIsColorBomb then
      some (detonateEntireBoard (resetCombo { st with board := swapB st.board a b }))
    else
      match boardRead (swapB st.board a b)
          (if aIsColorBomb then a else b).1 (if aIsColorBomb then a else b).2 with
      | some otherTile =>
          if otherTile.ttype == TileType.lineBomb then
            some (destroySingleTile
              (destroySingleTile (resetCombo { st with board := swapB st.board a b })
                (if aIsColorBomb then b else a))
              (if aIsColorBomb then a else b))
          else
            match detonateColorBomb o fuel
                (resetCombo { st with board := swapB st.board a b })
                otherTile.ttype (some (if aIsColorBomb then b else a)) with
            | none => none
            | some s => some (destroySingleTile s (if aIsColorBomb then b else a))
      | none => none) with
  | none => none
  | some st2 => afterBombPath o fuel st2

/-- The normal swap path: apply the swap, scan; zero groups reverts the
swap exactly, otherwise reset the combo and resolve the matches; then
validate. -/
def normalSwapPath (o : Oracle) (fuel : Nat) (st : EngineState) (a b : Pos) :
    Option EngineState :=
  match (if findMatches (buildMatchableGrid (swapB st.board a b)) = [] then
      some { st with board := swapB (swapB st.board a b) a b }
    else
      processMatches o fuel (resetCombo { st with board := swapB st.board a b })
        (findMatches (buildMatchableGrid (swapB st.board a b))) (some (a, b))) with
  | none => none
  | some st2 => finishResolution st2

/-- `onSwapRequest`, the sole swap entry point.  `none` models a thrown
JS `TypeError` (a row index outside `this.tiles` makes the column access
throw) or fuel exhaustion; `some` is a completed handler run. -/
def onSwapRequest (o : Oracle) (fuel : Nat) (st : EngineState) (req : Pos × Pos) :
    Option EngineState :=
  if st.busy then some st
  else if GRID_ROWS ≤ req.1.1 ∨ GRID_ROWS ≤ req.2.1 then none
  else
    match boardRead st.board req.1.1 req.1.2, boardRead st.board req.2.1 req.2.2 with
    | none, _ => some (reEnable { st with busy := true, inputEnabled := false })
    | some _, none => some (reEnable { st with busy := true, inputEnabled := false })
    | some tA, some tB =>
      if tA.ttype == TileType.colorBomb || tB.ttype == TileType.colorBomb then
        bombSwapPath o fuel { st with busy := true, inputEnabled := false } req.1 req.2
          (tA.ttype == TileType.colorBomb) (tB.ttype == TileType.colorBomb)
      else
        normalSwapPath o fuel { st with busy := true, inputEnabled := false } req.1 req.2

end VBall

namespace VBall

/-! ## Concrete boards, oracles and runs used by scenario theorems,
counterexamples and witnesses. -/

open TileType in
/-- Shorthand: a plain (regular color) tile object. -/
def pt (t : TileType) : Option TileObj := some ⟨t, none, none⟩

/-- Shorthand: a color bomb tile object. -/
def cb : Option TileObj := some ⟨TileType.colorBomb, none, none⟩

/-- Shorthand: a line bomb tile object. -/
def lbT (d : Direction) (t : TileType) : Option TileObj :=
  some ⟨TileType.lineBomb, some d, some t⟩

/-- A fresh idle engine state over a given board. -/
def initState (b : BGrid) : EngineState :=
  ⟨b, 0, 0, 0, false, true, false⟩

/-- An oracle whose tile draws follow a finite script (0 afterwards). -/
def scriptOracle (script : List Nat) : Oracle :=
  ⟨fun n => script.getD n 0, fun _ => 0⟩

open TileType Direction

/-- Row patterns of the scenario boards: 4-color stripes with no run of
3 anywhere (match-freeness of each full board is checked by `decide`
where a theorem relies on it). -/
def rowA : List (Option TileObj) :=
  [pt red, pt green, pt blue, pt yellow, pt red, pt green, pt blue, pt yellow]
def rowB : List (Option TileObj) :=
  [pt blue, pt yellow, pt red, pt green, pt blue, pt yellow, pt red, pt green]

/-- C8 scenario board: the alternating stripe board with row 3 edited so
that cols 2-4 hold red, col 6 holds red, and col 5 holds yellow; the
swap (3,6)-(3,5) completes a horizontal red run at row 3, cols 2-5. -/
def boardC8 : BGrid :=
  [rowA, rowB, rowA,
   [pt blue, pt yellow, pt red, pt red, pt red, pt yellow, pt red, pt green],
   [pt red, pt green, pt blue, pt yellow, pt green, pt green, pt blue, pt yellow],
   rowB, rowA, rowB]

/-- Refill script for the C8 run: green, blue, yellow into the three
holes at the top of columns 2, 3, 4. -/
def oracleC8 : Oracle := scriptOracle [2, 1, 3]

end VBall

namespace VBall
open TileType Direction

/-- The stale 4-color block pattern: rows alternate `red/blue` and
`green/yellow` in 2x2 blocks; it has no match and no valid move. -/
def staleIdx (r c : Nat) : Nat :=
  if r % 2 = 0 then (if c % 2 = 0 then 0 else 1) else (if c % 2 = 0 then 2 else 3)

def staleBoard : BGrid :=
  (List.range GRID_ROWS).map fun r =>
    (List.range GRID_COLS).map fun c => pt (tileOfIdx (staleIdx r c))

/-- C1 scenario board: two adjacent color bombs on top of the stale
pattern; swapping them clears the whole board. -/
def boardC1 : BGrid :=
  (List.range GRID_ROWS).map fun r =>
    (List.range GRID_COLS).map fun c =>
      if r = 0 ∧ (c = 0 ∨ c = 1) then cb else pt (tileOfIdx (staleIdx r c))

/-- Refill script for the C1 run: refills the emptied board back to the
stale pattern (column-major, bottom-up spawn order), forcing the
post-resolution move validator to find no valid move. -/
def oracleC1 : Oracle := ⟨fun n => staleIdx (7 - n % 8) (n / 8), fun _ => 0⟩

/-- The C2 counterexample grid for `hasValidMoves` (a `TGrid`, at the
matching layer): two reds at (2,0)-(2,1), a red at (3,2), and a color
bomb at (2,3) whose four neighbors are all empty.  The swap
(2,2)-(3,2) would complete a horizontal run of 3, but the scan skips
the down-probe of (2,2) because its right neighbor is a color bomb. -/
def cexGrid2 : TGrid := fun r c =>
  if r = 2 ∧ (c = 0 ∨ c = 1) then some red
  else if r = 3 ∧ c = 2 then some red
  else if r = 2 ∧ c = 3 then some colorBomb
  else none

/-- C5 counterexample board: the stripe board with row 2 edited to
`[R,G,B,R,G,R,B,Y]`.  The NON-adjacent request ((0,4),(2,4)) brings the
red at (0,4) down to (2,4), completing a red run at row 2, cols 3-5 --
the handler processes it instead of rejecting it. -/
def boardC5 : BGrid :=
  [rowA, rowB,
   [pt red, pt green, pt blue, pt red, pt green, pt red, pt blue, pt yellow],
   rowB, rowA, rowB, rowA, rowB]

/-- Refill script for the C5 run: red, yellow, blue into the holes at
the top of columns 3, 4, 5. -/
def oracleC5 : Oracle := scriptOracle [0, 3, 1]

/-- C4 board: a horizontal line bomb (base red) at (5,0) with its row
fully occupied by regular tiles and no other bomb anywhere. -/
def boardC4 : BGrid :=
  [rowA, rowB, rowA, rowB, rowA,
   [lbT horizontal red, pt yellow, pt red, pt green, pt blue, pt yellow, pt red, pt green],
   rowA, rowB]

/-- C9 counterexample board: a color bomb at (0,0) on the stripe
pattern; detonating it on red destroys the red cells but leaves the
color bomb itself on the board. -/
def boardC9 : BGrid :=
  [[cb, pt green, pt blue, pt yellow, pt red, pt green, pt blue, pt yellow],
   rowB, rowA, rowB, rowA, rowB, rowA, rowB]

/-- A no-draw oracle for runs that consume no randomness. -/
def oracle0 : Oracle := ⟨fun _ => 0, fun _ => 0⟩

end VBall

namespace VBall
open TileType Direction

/-! ## Result literals of the concrete runs (verified by `decide`). -/

/-- Final board of the C8 run. -/
def resultBoardC8 : BGrid :=
  [[pt red, pt green, pt green, pt blue, pt yellow, pt green, pt blue, pt yellow],
   [pt blue, pt yellow, pt blue, pt yellow, pt red, pt yellow, pt red, pt green],
   [pt red, pt green, pt red, pt green, pt blue, pt green, pt blue, pt yellow],
   [pt blue, pt yellow, pt blue, pt yellow, pt red, lbT horizontal red, pt yellow, pt green],
   [pt red, pt green, pt blue, pt yellow, pt green, pt green, pt blue, pt yellow],
   rowB, rowA, rowB]

/-- Final board of the C5 run (the non-adjacent swap was processed). -/
def resultBoardC5 : BGrid :=
  [[pt red, pt green, pt blue, pt red, pt yellow, pt blue, pt blue, pt yellow],
   [pt blue, pt yellow, pt red, pt yellow, pt green, pt green, pt red, pt green],
   [pt red, pt green, pt blue, pt green, pt blue, pt yellow, pt blue, pt yellow],
   rowB, rowA, rowB, rowA, rowB]

/-- Final board of the C4 line bomb detonation: row 5 fully cleared. -/
def resultBoardC4 : BGrid :=
  [rowA, rowB, rowA, rowB, rowA,
   [none, none, none, none, none, none, none, none],
   rowA, rowB]

/-- Final board of the C9 color bomb detonation: every red destroyed,
the color bomb itself still on the board. -/
def resultBoardC9 : BGrid :=
  [[cb, pt green, pt blue, pt yellow, none, pt green, pt blue, pt yellow],
   [pt blue, pt yellow, none, pt green, pt blue, pt yellow, none, pt green],
   [none, pt green, pt blue, pt yellow, none, pt green, pt blue, pt yellow],
   [pt blue, pt yellow, none, pt green, pt blue, pt yellow, none, pt green],
   [none, pt green, pt blue, pt yellow, none, pt green, pt blue, pt yellow],
   [pt blue, pt yellow, none, pt green, pt blue, pt yellow, none, pt green],
   [none, pt green, pt blue, pt yellow, none, pt green, pt blue, pt yellow],
   [pt blue, pt yellow, none, pt green, pt blue, pt yellow, none, pt green]]

/-! ## Spec-side predicates (these follow the WORDS of the spec, to be
compared against the behavior of the embedded code). -/

/-- Two positions are orthogonally adjacent. -/
def isAdjacent (p q : Pos) : Bool :=
  (p.1 == q.1 && (p.2 + 1 == q.2 || q.2 + 1 == p.2)) ||
  (p.2 == q.2 && (p.1 + 1 == q.1 || q.1 + 1 == p.1))

/-- Every unordered adjacent in-bounds pair, as right- and down-pairs. -/
def allAdjacentPairs : List (Pos × Pos) :=
  ((List.range GRID_ROWS).flatMap fun r =>
    (List.range (GRID_COLS - 1)).map fun c => (((r, c) : Pos), ((r, c+1) : Pos))) ++
  ((List.range (GRID_ROWS - 1)).flatMap fun r =>
    (List.range GRID_COLS).map fun c => (((r, c) : Pos), ((r+1, c) : Pos)))

/-- Spec clause (a) of the `hasValidMoves` contract: some single
adjacent swap, speculatively applied, yields at least one match group. -/
def specAdjacentSwapFindsMatch (g : TGrid) : Bool :=
  allAdjacentPairs.any fun pq =>
    !(findMatches (swap g pq.1.1 pq.1.2 pq.2.1 pq.2.2) == [])

/-- Spec clause (b): some cell holds a Color Bomb orthogonally adjacent
to a non-empty cell. -/
def specColorBombAdjacent (g : TGrid) : Bool :=
  allCells.any fun p =>
    readT g p.1 p.2 == some TileType.colorBomb &&
      (!(readT g p.1 (p.2+1) == none) || !(readT g (p.1+1) p.2 == none) ||
       (decide (1 ≤ p.2) && !(readT g p.1 (p.2-1) == none)) ||
       (decide (1 ≤ p.1) && !(readT g (p.1-1) p.2 == none)))

/-- Spec-side Line Bomb score: per-tile points for every destroyed cell
plus the flat detonation bonus. -/
def specLineBombScore (destroyed : Nat) : Nat :=
  destroyed * POINTS_PER_TILE + LINE_BOMB_BONUS

/-- Spec-side description of the probes the scan actually performs
(amended C2): some right- or down-swap probe finds a match group, where
a probe pair never involves a Color Bomb cell and a cell whose right
neighbor is a Color Bomb probes neither right nor down. -/
def specProbedSwapFindsMatch (g : TGrid) : Bool :=
  allCells.any fun p =>
    if readT g p.1 p.2 == some TileType.colorBomb then false
    else if decide (p.2 + 1 < GRID_COLS) &&
        (readT g p.1 (p.2 + 1) == some TileType.colorBomb) then false
    else
      (decide (p.2 + 1 < GRID_COLS) &&
        !(findMatches (swap g p.1 p.2 p.1 (p.2 + 1)) == [])) ||
      (decide (p.1 + 1 < GRID_ROWS) &&
        !(readT g (p.1 + 1) p.2 == some TileType.colorBomb) &&
        !(findMatches (swap g p.1 p.2 (p.1 + 1) p.2) == []))

/-- Number of bomb tiles (line or color) on the board. -/
def bombCount (b : BGrid) : Nat := allCells.countP fun p => isBombAt b p

/-- A board whose swap (6,0)-(7,0) produces no match group (used to
exercise the failed-swap revert), while the probe at (0,0) finds a
move at once. -/
def boardC3 : BGrid :=
  [[pt TileType.red, pt TileType.blue, pt TileType.red, pt TileType.red,
    pt TileType.green, pt TileType.blue, pt TileType.green, pt TileType.blue],
   rowB, rowA, rowB, rowA, rowB, rowA, rowB]

end VBall
namespace VBall
open TileType Direction

/-! ## Match Finder soundness (C6). -/

theorem isMatchable_iff (t : Option TileType) :
    isMatchable t = true ↔ t ≠ none ∧ t ≠ some TileType.colorBomb := by
  cases t with
  | none => simp [isMatchable]
  | some tt => cases tt <;> simp [isMatchable]

theorem scanStep_true (cell startCell rc)
    (h : (scanStep cell startCell rc).1 = true) :
    isMatchable cell = true ∧ isMatchable startCell = true := by
  unfold scanStep at h
  by_cases hc : (isMatchable cell && isMatchable startCell) = true
  · exact ⟨(Bool.and_eq_true_iff.mp hc).1, (Bool.and_eq_true_iff.mp hc).2⟩
  · simp [hc] at h

/-- Invariant of the run-scanning loop: every emitted `(start, len)` run
has length ≥ `MIN_MATCH` and consists of matchable cells only. -/
theorem scanAux_sound (read : Nat → Option TileType) :
    ∀ (n c0 runStart : Nat) (runColor : Option TileType) (acc : List (Nat × Nat)),
      runStart < c0 →
      (∀ k, runStart < k → k < c0 → isMatchable (read k) = true) →
      (runStart + 1 < c0 → isMatchable (read runStart) = true) →
      (∀ rl ∈ acc, MIN_MATCH ≤ rl.2 ∧
        ∀ k, rl.1 ≤ k → k < rl.1 + rl.2 → isMatchable (read k) = true) →
      ∀ rl ∈ scanAux read (List.range' c0 n) runStart runColor acc,
        MIN_MATCH ≤ rl.2 ∧
          ∀ k, rl.1 ≤ k → k < rl.1 + rl.2 → isMatchable (read k) = true := by
  intro n
  induction n with
  | zero =>
      intro c0 runStart runColor acc _ _ _ hacc rl hrl
      simpa [scanAux] using hacc rl (by simpa [scanAux] using hrl)
  | succ n ih =>
      intro c0 runStart runColor acc hlt hmid hstart hacc rl hrl
      rw [List.range'_succ] at hrl
      rw [scanAux] at hrl
      by_cases hs : (scanStep (read c0) (read runStart) runColor).1 = true
      · -- run continues through c0
        obtain ⟨hc, hst⟩ := scanStep_true _ _ _ hs
        simp only [hs, if_true] at hrl
        refine ih (c0+1) runStart _ acc (Nat.lt_succ_of_lt hlt) ?_ ?_ hacc rl hrl
        · intro k hk1 hk2
          rcases Nat.lt_succ_iff_lt_or_eq.mp hk2 with h | h
          · exact hmid k hk1 h
          · simpa [h] using hc
        · intro _; exact hst
      · -- run breaks at c0: maybe emit, restart at c0
        simp only [hs, if_false, Bool.not_eq_true] at hrl
        rw [if_neg (by simp [hs])] at hrl
        refine ih (c0+1) c0 _ _ (Nat.lt_succ_self c0) ?_ ?_ ?_ rl hrl
        · intro k hk1 hk2; omega
        · omega
        · intro rl' hrl'
          by_cases hpush :
              (decide (MIN_MATCH ≤ c0 - runStart) && isMatchable (read runStart)) = true
          · rw [if_pos hpush] at hrl'
            rcases List.mem_append.mp hrl' with h | h
            · exact hacc rl' h
            · rcases List.mem_singleton.mp h with rfl
              obtain ⟨hlen, hm⟩ := Bool.and_eq_true_iff.mp hpush
              refine ⟨by simpa using of_decide_eq_true hlen, ?_⟩
              intro k hk1 hk2
              have hk2' : k < c0 := by omega
              rcases Nat.lt_or_ge runStart k with h' | h'
              · exact hmid k h' hk2'
              · have : k = runStart := by omega
                simpa [this] using hm
          · rw [if_neg hpush] at hrl'
            exact hacc rl' hrl'

end VBall

namespace VBall
open TileType Direction

theorem readT_matchable {g : TGrid} {r c : Nat}
    (h : isMatchable (readT g r c) = true) :
    g r c ≠ some TileType.colorBomb := by
  obtain ⟨hne, hcb⟩ := (isMatchable_iff _).mp h
  unfold readT at hne hcb
  by_cases hb : r < GRID_ROWS ∧ c < GRID_COLS
  · simpa [hb] using hcb
  · simp [hb] at hne

/-- C6: every group returned by `findMatches` has length at least
`MIN_MATCH` and contains no Color Bomb position. -/
theorem findMatches_sound (g : TGrid) :
    ∀ m ∈ findMatches g, MIN_MATCH ≤ m.length ∧
      ∀ p ∈ m.positions, g p.1 p.2 ≠ some TileType.colorBomb := by
  intro m hm
  unfold findMatches at hm
  have main : ∀ (read : Nat → Option TileType) (len : Nat)
      (mk : Nat → Pos) (d : Direction),
      (∀ k, (mk k).1 < GRID_ROWS ∧ (mk k).2 < GRID_COLS →
        readT g (mk k).1 (mk k).2 = read k) →
      (∀ k, readT g (mk k).1 (mk k).2 = read k) →
      ∀ rl ∈ scanLine read len,
        MIN_MATCH ≤ rl.2 ∧
        ∀ k, rl.1 ≤ k → k < rl.1 + rl.2 →
          g (mk k).1 (mk k).2 ≠ some TileType.colorBomb := by
    intro read len mk d _ hread rl hrl
    have h := scanAux_sound read len 1 0 (initRunColor read) []
      (by omega) (by omega) (by omega) (by simp) rl hrl
    refine ⟨h.1, ?_⟩
    intro k hk1 hk2
    have hmk := h.2 k hk1 hk2
    rw [← hread k] at hmk
    exact readT_matchable hmk
  rcases List.mem_append.mp hm with h | h
  · obtain ⟨r, _, hmem⟩ := List.mem_flatMap.mp h
    obtain ⟨rl, hrl, rfl⟩ := List.mem_map.mp hmem
    have h := main (fun c => readT g r c) GRID_COLS (fun k => (r, k))
      Direction.horizontal (fun _ _ => rfl) (fun _ => rfl) rl hrl
    refine ⟨h.1, ?_⟩
    intro p hp
    obtain ⟨k, hk, rfl⟩ := List.mem_map.mp hp
    exact h.2 k (List.mem_range'_1.mp hk).1 (List.mem_range'_1.mp hk).2
  · obtain ⟨c, _, hmem⟩ := List.mem_flatMap.mp h
    obtain ⟨rl, hrl, rfl⟩ := List.mem_map.mp hmem
    have h := main (fun r => readT g r c) GRID_ROWS (fun k => (k, c))
      Direction.vertical (fun _ _ => rfl) (fun _ => rfl) rl hrl
    refine ⟨h.1, ?_⟩
    intro p hp
    obtain ⟨k, hk, rfl⟩ := List.mem_map.mp hp
    exact h.2 k (List.mem_range'_1.mp hk).1 (List.mem_range'_1.mp hk).2

end VBall

namespace VBall
open TileType Direction

/-- Witness for `findMatches_sound` at a concrete grid and group. -/
theorem findMatches_sound_witness :
    MIN_MATCH ≤ (MatchGroup.mk [(2,0),(2,1),(2,2)] 3 horizontal).length ∧
      ∀ p ∈ (MatchGroup.mk [(2,0),(2,1),(2,2)] 3 horizontal).positions,
        (swap cexGrid2 2 2 3 2) p.1 p.2 ≠ some TileType.colorBomb :=
  findMatches_sound (swap cexGrid2 2 2 3 2) _ (by decide)

end VBall

namespace VBall
open TileType Direction

/-! ## Board update lemmas and failed-swap revert (C3). -/

theorem boardRead_ne_none_bounds {b : BGrid} {r c : Nat}
    (h : boardRead b r c ≠ none) :
    r < b.length ∧ c < (b.getD r []).length := by
  unfold boardRead at h
  have hr : r < b.length := by
    by_contra hr
    rw [List.getD_eq_default b [] (by omega)] at h
    exact h (List.getD_eq_default [] none (by simp))
  refine ⟨hr, ?_⟩
  by_contra hc
  rw [List.getD_eq_default (b.getD r []) none (by omega)] at h
  exact h rfl

theorem length_setCell (b : BGrid) (r c : Nat) (v : Option TileObj) :
    (setCell b r c v).length = b.length := by
  unfold setCell; exact List.length_set ..

theorem getD_setCell_ne (b : BGrid) (r c : Nat) (v : Option TileObj) (i : Nat)
    (hi : i ≠ r) : (setCell b r c v).getD i [] = b.getD i [] := by
  unfold setCell
  rw [List.getD_eq_getElem?_getD, List.getElem?_set_ne (by omega),
    ← List.getD_eq_getElem?_getD]

theorem getD_setCell_eq (b : BGrid) (r c : Nat) (v : Option TileObj)
    (hr : r < b.length) :
    (setCell b r c v).getD r [] = (b.getD r []).set c v := by
  unfold setCell
  rw [List.getD_eq_getElem?_getD, List.getElem?_set_eq_of_lt _ hr]
  rfl

theorem row_length_setCell (b : BGrid) (r c : Nat) (v : Option TileObj) (i : Nat) :
    ((setCell b r c v).getD i []).length = (b.getD i []).length := by
  by_cases hi : i = r
  · subst hi
    by_cases hr : i < b.length
    · rw [getD_setCell_eq _ _ _ _ hr, List.length_set]
    · unfold setCell
      rw [List.set_eq_of_length_le (by omega)]
  · rw [getD_setCell_ne _ _ _ _ _ hi]

theorem boardRead_setCell (b : BGrid) (r c : Nat) (v : Option TileObj)
    (hr : r < b.length) (hc : c < (b.getD r []).length) (i j : Nat) :
    boardRead (setCell b r c v) i j =
      if i = r ∧ j = c then v else boardRead b i j := by
  unfold boardRead
  by_cases hi : i = r
  · subst hi
    rw [getD_setCell_eq _ _ _ _ hr]
    by_cases hj : j = c
    · subst hj
      rw [List.getD_eq_getElem?_getD, List.getElem?_set_eq_of_lt _ hc]
      simp
    · rw [List.getD_eq_getElem?_getD, List.getElem?_set_ne (by omega),
        ← List.getD_eq_getElem?_getD]
      simp [hj]
  · rw [getD_setCell_ne _ _ _ _ _ hi]
    simp [hi]

theorem length_swapB (bd : BGrid) (p q : Pos) :
    (swapB bd p q).length = bd.length := by
  show (setCell (setCell bd p.1 p.2 _) q.1 q.2 _).length = bd.length
  rw [length_setCell, length_setCell]

theorem row_length_swapB (bd : BGrid) (p q : Pos) (i : Nat) :
    ((swapB bd p q).getD i []).length = (bd.getD i []).length := by
  show ((setCell (setCell bd p.1 p.2 _) q.1 q.2 _).getD i []).length = _
  rw [row_length_setCell, row_length_setCell]

/-- Pointwise description of `swapB` on an in-bounds pair. -/
theorem boardRead_swapB (bd : BGrid) (p q : Pos)
    (hp1 : p.1 < bd.length) (hp2 : p.2 < (bd.getD p.1 []).length)
    (hq1 : q.1 < bd.length) (hq2 : q.2 < (bd.getD q.1 []).length) (i j : Nat) :
    boardRead (swapB bd p q) i j =
      if i = q.1 ∧ j = q.2 then boardRead bd p.1 p.2
      else if i = p.1 ∧ j = p.2 then boardRead bd q.1 q.2
      else boardRead bd i j := by
  show boardRead (setCell (setCell bd p.1 p.2 (boardRead bd q.1 q.2)) q.1 q.2
      (boardRead bd p.1 p.2)) i j = _
  rw [boardRead_setCell _ _ _ _
      (by rw [length_setCell]; exact hq1)
      (by rw [row_length_setCell]; exact hq2),
    boardRead_setCell _ _ _ _ hp1 hp2]

/-- Applying the same swap twice restores every cell (exact revert). -/
theorem boardRead_swapB_swapB (bd : BGrid) (p q : Pos)
    (hp : boardRead bd p.1 p.2 ≠ none) (hq : boardRead bd q.1 q.2 ≠ none)
    (i j : Nat) :
    boardRead (swapB (swapB bd p q) p q) i j = boardRead bd i j := by
  obtain ⟨hp1, hp2⟩ := boardRead_ne_none_bounds hp
  obtain ⟨hq1, hq2⟩ := boardRead_ne_none_bounds hq
  rw [boardRead_swapB _ _ _
      (by rw [length_swapB]; exact hp1)
      (by rw [row_length_swapB]; exact hp2)
      (by rw [length_swapB]; exact hq1)
      (by rw [row_length_swapB]; exact hq2),
    boardRead_swapB bd p q hp1 hp2 hq1 hq2 p.1 p.2,
    boardRead_swapB bd p q hp1 hp2 hq1 hq2 q.1 q.2,
    boardRead_swapB bd p q hp1 hp2 hq1 hq2 i j]
  by_cases h3 : p.1 = q.1 ∧ p.2 = q.2
  · obtain ⟨e1, e2⟩ := h3
    by_cases h1 : i = q.1 ∧ j = q.2
    · obtain ⟨f1, f2⟩ := h1
      simp [e1, e2, f1, f2]
    · simp [e1, e2, h1]
  · by_cases h1 : i = q.1 ∧ j = q.2
    · obtain ⟨f1, f2⟩ := h1
      simp [f1, f2, h3]
    · by_cases h2 : i = p.1 ∧ j = p.2
      · obtain ⟨f1, f2⟩ := h2
        simp [f1, f2, h3, fun h : p.1 = q.1 ∧ p.2 = q.2 => h3 h]
      · simp [h1, h2]

/-- C7: whenever `processMatches` completes (returns `some`), the final
grid contains no match group -- the loop exits only after a rescan of
the refilled board finds nothing. -/
theorem processMatches_stable (o : Oracle) :
    ∀ (fuel : Nat) (st : EngineState) (ms : List MatchGroup)
      (sp : Option (Pos × Pos)) (res : EngineState),
      processMatches o fuel st ms sp = some res →
      findMatches (buildMatchableGrid res.board) = [] := by
  intro fuel
  induction fuel with
  | zero => intro st ms sp res h; simp [processMatches] at h
  | succ f ih =>
      intro st ms sp res h
      rw [processMatches] at h
      split at h
      · exact absurd h (by simp)
      · rename_i st3 h3
        by_cases hnew : findMatches (buildMatchableGrid
            (fillEmpty o (cascade
              (List.foldl spawnBonus st3 (determineBonuses st ms sp)))).board) = []
        · rw [if_pos hnew, Option.some_inj] at h
          subst h
          exact hnew
        · rw [if_neg hnew] at h
          exact ih _ _ _ _ h

end VBall

namespace VBall
open TileType Direction

/-- Witness for `processMatches_stable` on an already-stable board. -/
theorem processMatches_stable_witness :
    findMatches (buildMatchableGrid
      ((processMatches oracle0 1 (initState staleBoard) [] none).getD
        default).board) = [] :=
  processMatches_stable oracle0 1 (initState staleBoard) [] none _ (by decide)

end VBall

namespace VBall
open TileType Direction

/-! ## State-shape lemmas: every phase below the controller only touches
the board (and the rng cursor / score-combo pair), never the flags. -/

theorem clearCellAt_shape (st : EngineState) (r c : Nat) :
    ∃ b', clearCellAt st r c = { st with board := b' } := ⟨_, rfl⟩

theorem destroySingleTile_shape (st : EngineState) (p : Pos) :
    ∃ b', destroySingleTile st p = { st with board := b' } := by
  unfold destroySingleTile
  split
  · exact ⟨st.board, rfl⟩
  · exact ⟨_, rfl⟩

theorem clearIfNotBomb_shape (st : EngineState) (t : Pos) :
    ∃ b', clearIfNotBomb st t = { st with board := b' } := by
  unfold clearIfNotBomb
  split
  · split
    · exact ⟨_, rfl⟩
    · exact ⟨st.board, rfl⟩
  · exact ⟨st.board, rfl⟩

theorem foldl_board_shape {α : Type} (f : EngineState → α → EngineState)
    (hf : ∀ s x, ∃ b', f s x = { s with board := b' }) :
    ∀ (l : List α) (st : EngineState),
      ∃ b', l.foldl f st = { st with board := b' } := by
  intro l
  induction l with
  | nil => exact fun st => ⟨st.board, rfl⟩
  | cons x xs ih =>
      intro st
      obtain ⟨b1, h1⟩ := hf st x
      obtain ⟨b2, h2⟩ := ih (f st x)
      rw [List.foldl_cons, h2, h1]
      exact ⟨b2, rfl⟩

theorem cascade_shape (st : EngineState) :
    ∃ b', cascade st = { st with board := b' } := ⟨_, rfl⟩

theorem foldl_board_rng_shape {α : Type} (f : EngineState → α → EngineState)
    (hf : ∀ s x, ∃ b' n', f s x = { s with board := b', rng := n' }) :
    ∀ (l : List α) (st : EngineState),
      ∃ b' n', l.foldl f st = { st with board := b', rng := n' } := by
  intro l
  induction l with
  | nil => exact fun st => ⟨st.board, st.rng, rfl⟩
  | cons x xs ih =>
      intro st
      obtain ⟨b1, n1, h1⟩ := hf st x
      obtain ⟨b2, n2, h2⟩ := ih (f st x)
      rw [List.foldl_cons, h2, h1]
      exact ⟨b2, n2, rfl⟩

theorem fillCell_shape (o : Oracle) (active c : Nat) (s : EngineState) (r : Nat) :
    ∃ b' n', fillCell o active c s r = { s with board := b', rng := n' } := by
  unfold fillCell
  split
  · exact ⟨s.board, s.rng, rfl⟩
  · exact ⟨_, _, rfl⟩

theorem fillEmpty_shape (o : Oracle) (st : EngineState) :
    ∃ b' n', fillEmpty o st = { st with board := b', rng := n' } := by
  unfold fillEmpty
  refine foldl_board_rng_shape _ ?_ _ st
  intro s c
  exact foldl_board_rng_shape (fillCell o (activeColors st) c)
    (fillCell_shape o (activeColors st) c) _ s

end VBall
namespace VBall
open TileType Direction

/-- The controller-phase invariant: score never decreases, and the
`busy` / input-enabled / game-over flags are untouched. -/
def phaseInv (st res : EngineState) : Prop :=
  st.score ≤ res.score ∧ res.busy = st.busy ∧
    res.inputEnabled = st.inputEnabled ∧ res.gameOver = st.gameOver

theorem phaseInv_refl (st : EngineState) : phaseInv st st :=
  ⟨le_refl _, rfl, rfl, rfl⟩

theorem phaseInv_trans {a b c : EngineState} :
    phaseInv a b → phaseInv b c → phaseInv a c :=
  fun h1 h2 => ⟨le_trans h1.1 h2.1, h2.2.1.trans h1.2.1,
    h2.2.2.1.trans h1.2.2.1, h2.2.2.2.trans h1.2.2.2⟩

theorem phaseInv_board {st s' : EngineState} {b' : BGrid}
    (h : s' = { st with board := b' }) : phaseInv st s' := by
  subst h; exact ⟨le_refl _, rfl, rfl, rfl⟩

theorem phaseInv_addMatch (st : EngineState) (n : Nat) :
    phaseInv st (addMatch st n) :=
  ⟨Nat.le_add_right _ _, rfl, rfl, rfl⟩

theorem phaseInv_fill (o : Oracle) (st : EngineState) :
    phaseInv st (fillEmpty o st) := by
  obtain ⟨b', n', h⟩ := fillEmpty_shape o st
  rw [h]; exact ⟨le_refl _, rfl, rfl, rfl⟩

theorem phaseInv_pick (o : Oracle) (st : EngineState) :
    phaseInv st (pickRandomColorOnBoard o st).2 := by
  by_cases hc : colorsOnBoard st.board = []
  · have he : (pickRandomColorOnBoard o st).2 = st := by
      simp [pickRandomColorOnBoard, hc]
    rw [he]; exact phaseInv_refl st
  · have he : (pickRandomColorOnBoard o st).2 = { st with rng := st.rng + 1 } := by
      simp [pickRandomColorOnBoard, hc]
    rw [he]; exact ⟨le_refl _, rfl, rfl, rfl⟩

theorem phaseInv_clears (st : EngineState) (l : List Pos) :
    phaseInv st (l.foldl clearIfNotBomb st) := by
  obtain ⟨b', h⟩ := foldl_board_shape clearIfNotBomb clearIfNotBomb_shape l st
  exact phaseInv_board h

theorem phaseInv_destroySingle (st : EngineState) (p : Pos) :
    phaseInv st (destroySingleTile st p) := by
  obtain ⟨b', h⟩ := destroySingleTile_shape st p
  exact phaseInv_board h

/-- Every completed detonation run satisfies the phase invariant. -/
theorem detonate_inv (o : Oracle) :
    ∀ (fuel : Nat) (job : DetJob) (st res : EngineState),
      detonate o fuel job st = some res → phaseInv st res := by
  intro fuel
  induction fuel with
  | zero => intro job st res h; simp [detonate] at h
  | succ f ih =>
      intro job st res h
      cases job with
      | line pos =>
          rw [detonate] at h
          split at h
          · rw [Option.some_inj] at h; subst h; exact phaseInv_refl st
          · refine phaseInv_trans (phaseInv_trans
              (phaseInv_trans (phaseInv_board rfl) (phaseInv_addMatch _ _))
              (phaseInv_clears _ _)) (ih _ _ _ h)
      | color t src =>
          rw [detonate] at h
          split at h
          · rw [Option.some_inj] at h; subst h; exact phaseInv_refl st
          · refine phaseInv_trans (phaseInv_trans
              (phaseInv_addMatch _ _) (phaseInv_clears _ _)) (ih _ _ _ h)
      | chain bombs =>
          cases bombs with
          | nil =>
              rw [detonate] at h
              rw [Option.some_inj] at h; subst h; exact phaseInv_refl st
          | cons bp rest =>
              rw [detonate] at h
              split at h
              · exact ih _ _ _ h
              · split at h
                · split at h
                  · exact absurd h (by simp)
                  · rename_i st' hline
                    exact phaseInv_trans (ih _ _ _ hline) (ih _ _ _ h)
                · split at h
                  · split at h
                    · split at h
                      · exact absurd h (by simp)
                      · rename_i c hc st' hcolor
                        refine phaseInv_trans (phaseInv_pick o st)
                          (phaseInv_trans (ih _ _ _ hcolor)
                            (phaseInv_trans (phaseInv_destroySingle _ _)
                              (ih _ _ _ h)))
                    · refine phaseInv_trans (phaseInv_pick o st)
                        (phaseInv_trans (phaseInv_destroySingle _ _) (ih _ _ _ h))
                  · exact ih _ _ _ h

end VBall

namespace VBall
open TileType Direction

theorem removeMatched_shape (keys : List Pos) (s : EngineState) (p : Pos) :
    ∃ b', removeMatched keys s p = { s with board := b' } := by
  unfold removeMatched
  split
  · exact ⟨s.board, rfl⟩
  · split
    · split
      · exact ⟨s.board, rfl⟩
      · exact ⟨_, rfl⟩
    · exact ⟨_, rfl⟩

theorem spawnBonus_shape (s : EngineState) (b : Bonus) :
    ∃ b', spawnBonus s b = { s with board := b' } := ⟨_, rfl⟩

theorem foldlM_phaseInv (f : EngineState → Pos → Option EngineState)
    (hf : ∀ s x s', f s x = some s' → phaseInv s s') :
    ∀ (l : List Pos) (st res : EngineState),
      List.foldlM f st l = some res → phaseInv st res := by
  intro l
  induction l with
  | nil =>
      intro st res h
      rw [List.foldlM_nil] at h
      have h' : some st = some res := h
      rw [Option.some_inj] at h'; subst h'; exact phaseInv_refl st
  | cons x xs ih =>
      intro st res h
      rw [List.foldlM_cons] at h
      cases hfx : f st x with
      | none => rw [hfx] at h; exact absurd h (by simp)
      | some s' =>
          rw [hfx] at h
          exact phaseInv_trans (hf st x s' hfx) (ih s' res h)

theorem triggerLineBomb_inv (o : Oracle) (f : Nat) (s : EngineState) (bp : Pos)
    (res : EngineState) (h : triggerLineBomb o f s bp = some res) :
    phaseInv s res := by
  unfold triggerLineBomb at h
  split at h
  · rw [Option.some_inj] at h; subst h; exact phaseInv_refl s
  · exact detonate_inv o f _ s res h

/-- Every completed `processMatches` run satisfies the phase invariant. -/
theorem processMatches_inv (o : Oracle) :
    ∀ (fuel : Nat) (st : EngineState) (ms : List MatchGroup)
      (sp : Option (Pos × Pos)) (res : EngineState),
      processMatches o fuel st ms sp = some res → phaseInv st res := by
  intro fuel
  induction fuel with
  | zero => intro st ms sp res h; simp [processMatches] at h
  | succ f ih =>
      intro st ms sp res h
      rw [processMatches] at h
      split at h
      · exact absurd h (by simp)
      · rename_i st3 h3
        have hstep := foldlM_phaseInv _ (triggerLineBomb_inv o f) _ _ _ h3
        have inv3 : phaseInv st st3 := by
          refine phaseInv_trans ?_ hstep
          refine phaseInv_trans (phaseInv_addMatch st (dedupPositions ms).length) ?_
          obtain ⟨b', hb⟩ := foldl_board_shape _ (removeMatched_shape _) _
            (addMatch st (dedupPositions ms).length)
          exact phaseInv_board hb
        have hsp : phaseInv st3 (List.foldl spawnBonus st3 (determineBonuses st ms sp)) := by
          obtain ⟨b', hb⟩ := foldl_board_shape _ spawnBonus_shape _ st3
          exact phaseInv_board hb
        have hcasc : phaseInv (List.foldl spawnBonus st3 (determineBonuses st ms sp))
            (cascade (List.foldl spawnBonus st3 (determineBonuses st ms sp))) := by
          obtain ⟨b', hb⟩ := cascade_shape (List.foldl spawnBonus st3 (determineBonuses st ms sp))
          exact phaseInv_board hb
        have inv5 : phaseInv st3
            (fillEmpty o (cascade (List.foldl spawnBonus st3 (determineBonuses st ms sp)))) :=
          phaseInv_trans hsp (phaseInv_trans hcasc (phaseInv_fill o _))
        have h' :
            (if findMatches (buildMatchableGrid
                (fillEmpty o (cascade (List.foldl spawnBonus st3
                  (determineBonuses st ms sp)))).board) = [] then
              some (fillEmpty o (cascade (List.foldl spawnBonus st3
                (determineBonuses st ms sp))))
            else
              processMatches o f
                (fillEmpty o (cascade (List.foldl spawnBonus st3
                  (determineBonuses st ms sp))))
                (findMatches (buildMatchableGrid
                  (fillEmpty o (cascade (List.foldl spawnBonus st3
                    (determineBonuses st ms sp)))).board))
                none) = some res := h
        split at h'
        · rw [Option.some_inj] at h'; subst h'
          exact phaseInv_trans inv3 inv5
        · exact phaseInv_trans inv3 (phaseInv_trans inv5 (ih _ _ _ _ h'))

end VBall

namespace VBall
open TileType Direction

theorem phaseInv_detonateEntireBoard (st : EngineState) :
    phaseInv st (detonateEntireBoard st) := by
  unfold detonateEntireBoard
  exact phaseInv_trans (phaseInv_board rfl) (phaseInv_addMatch _ _)

theorem phaseInv_resetCombo (st : EngineState) : phaseInv st (resetCombo st) :=
  ⟨le_refl _, rfl, rfl, rfl⟩

end VBall

namespace VBall
open TileType Direction


theorem mem_allCells {p : Pos} :
    p ∈ allCells ↔ p.1 < GRID_ROWS ∧ p.2 < GRID_COLS := by
  unfold allCells
  constructor
  · intro h
    obtain ⟨r, hr, h⟩ := List.mem_flatMap.mp h
    obtain ⟨c, hc, rfl⟩ := List.mem_map.mp h
    exact ⟨List.mem_range.mp hr, List.mem_range.mp hc⟩
  · intro ⟨h1, h2⟩
    refine List.mem_flatMap.mpr ⟨p.1, List.mem_range.mpr h1, ?_⟩
    exact List.mem_map.mpr ⟨p.2, List.mem_range.mpr h2, rfl⟩

/-- C5 (amended): a request that references an empty cell (with
in-range row indices) is rejected before any mutation: the handler
returns at once with the state unchanged except that it is Idle again
(busy cleared, input re-enabled). -/
theorem emptyCell_request_rejected (o : Oracle) (fuel : Nat)
    (st : EngineState) (a b : Pos)
    (hbusy : st.busy = false)
    (ha8 : a.1 < GRID_ROWS) (hb8 : b.1 < GRID_ROWS)
    (hempty : boardRead st.board a.1 a.2 = none ∨
      boardRead st.board b.1 b.2 = none) :
    onSwapRequest o fuel st (a, b) =
      some { st with busy := false, inputEnabled := true } := by
  rcases hempty with he | he
  · simp [onSwapRequest, hbusy, he, Nat.not_le.mpr ha8, Nat.not_le.mpr hb8, reEnable]
  · cases htA : boardRead st.board a.1 a.2 <;>
      simp [onSwapRequest, hbusy, he, htA, Nat.not_le.mpr ha8, Nat.not_le.mpr hb8, reEnable]

/-- C4 (amended): a line bomb detonation whose row/column contains no
other bomb awards exactly one `addMatch(LINE_BOMB_BONUS)` -- that is,
`matchPoints LINE_BOMB_BONUS combo` points, independent of the number
of cells destroyed -- and advances the combo once. -/
theorem detonateLineBomb_score (o : Oracle) (f : Nat) (st : EngineState)
    (pos : Pos)
    (hpos : pos.1 < GRID_ROWS ∧ pos.2 < GRID_COLS)
    (hsome : boardRead st.board pos.1 pos.2 ≠ none)
    (hnobomb : ∀ q ∈ allCells, q ≠ pos → isBombAt st.board q = false) :
    ∃ res, detonateLineBomb o (f + 2) st pos = some res ∧
      res.score = st.score + matchPoints LINE_BOMB_BONUS st.combo ∧
      res.combo = st.combo + 1 := by
  obtain ⟨hb1, hb2⟩ := boardRead_ne_none_bounds hsome
  obtain ⟨tile, htile⟩ := Option.ne_none_iff_exists'.mp hsome
  unfold detonateLineBomb
  rw [detonate]
  rw [htile]
  have hread1 : ∀ q : Pos, q ≠ pos →
      boardRead (addMatch (clearCellAt st pos.1 pos.2) LINE_BOMB_BONUS).board q.1 q.2 =
        boardRead st.board q.1 q.2 := by
    intro q hq
    show boardRead (setCell st.board pos.1 pos.2 none) q.1 q.2 = _
    rw [boardRead_setCell _ _ _ _ hb1 hb2]
    rw [if_neg]
    intro ⟨e1, e2⟩
    exact hq (Prod.ext e1 e2)
  have hchain : ∀ (targets : List Pos),
      (∀ t ∈ targets, t ∈ allCells ∧ t ≠ pos) →
      targets.filter (fun t =>
        isBombAt (addMatch (clearCellAt st pos.1 pos.2) LINE_BOMB_BONUS).board t) = [] := by
    intro targets ht
    rw [List.filter_eq_nil]
    intro t hmem
    have ⟨hcell, hne⟩ := ht t hmem
    unfold isBombAt
    rw [hread1 t hne]
    have := hnobomb t hcell hne
    unfold isBombAt at this
    rw [this]
    simp
  set st1 := addMatch (clearCellAt st pos.1 pos.2) LINE_BOMB_BONUS with hst1
  have hs1score : st1.score = st.score + matchPoints LINE_BOMB_BONUS st.combo := rfl
  have hs1combo : st1.combo = st.combo + 1 := rfl
  cases horient : tile.bonusOrientation.getD Direction.horizontal with
  | horizontal =>
      simp only [horient]
      rw [hchain _ ?_]
      · rw [detonate]
        obtain ⟨b', hb'⟩ := foldl_board_shape clearIfNotBomb clearIfNotBomb_shape
          (((List.range GRID_COLS).filter fun c =>
            c ≠ pos.2 ∧ boardRead st1.board pos.1 c ≠ none).map fun c => (pos.1, c)) st1
        rw [hb']
        exact ⟨_, rfl, hs1score, hs1combo⟩
      · intro t hmem
        obtain ⟨c, hc, rfl⟩ := List.mem_map.mp hmem
        have hc' := List.mem_filter.mp hc
        refine ⟨mem_allCells.mpr ⟨hpos.1, List.mem_range.mp hc'.1⟩, ?_⟩
        intro he
        have hcc : c = pos.2 := congrArg Prod.snd he
        exact (of_decide_eq_true hc'.2).1 hcc
  | vertical =>
      simp only [horient]
      rw [hchain _ ?_]
      · rw [detonate]
        obtain ⟨b', hb'⟩ := foldl_board_shape clearIfNotBomb clearIfNotBomb_shape
          (((List.range GRID_ROWS).filter fun r =>
            r ≠ pos.1 ∧ boardRead st1.board r pos.2 ≠ none).map fun r => (r, pos.2)) st1
        rw [hb']
        exact ⟨_, rfl, hs1score, hs1combo⟩
      · intro t hmem
        obtain ⟨r, hr, rfl⟩ := List.mem_map.mp hmem
        have hr' := List.mem_filter.mp hr
        refine ⟨mem_allCells.mpr ⟨List.mem_range.mp hr'.1, hpos.2⟩, ?_⟩
        intro he
        have hrr : r = pos.1 := congrArg Prod.fst he
        exact (of_decide_eq_true hr'.2).1 hrr

end VBall

namespace VBall
open TileType Direction

/-! ## Decomposition of a completed `onSwapRequest` run. -/

theorem finishResolution_fields (st res : EngineState)
    (h : finishResolution st = some res) :
    res.score = st.score ∧ res.board = st.board ∧ res.combo = st.combo := by
  unfold finishResolution at h
  split at h <;> (rw [Option.some_inj] at h; subst h; exact ⟨rfl, rfl, rfl⟩)

theorem finishResolution_cases (st res : EngineState)
    (h : finishResolution st = some res) :
    (hasValidMoves (buildMatchableGrid st.board) = false ∧
      res = { st with gameOver := true }) ∨
    (hasValidMoves (buildMatchableGrid st.board) = true ∧ res = reEnable st) := by
  unfold finishResolution at h
  split at h
  · rename_i hc
    rw [Option.some_inj] at h
    exact Or.inl ⟨by simpa using hc, h.symm⟩
  · rename_i hc
    rw [Option.some_inj] at h
    exact Or.inr ⟨by simpa using hc, h.symm⟩

theorem afterBombPath_some (o : Oracle) (fuel : Nat) (st res : EngineState)
    (h : afterBombPath o fuel st = some res) :
    ∃ st4, phaseInv st st4 ∧ finishResolution st4 = some res := by
  unfold afterBombPath at h
  split at h
  · exact absurd h (by simp)
  · rename_i st4 h4
    refine ⟨st4, ?_, h⟩
    have hfill : phaseInv st (fillEmpty o (cascade st)) := by
      obtain ⟨b', hb⟩ := cascade_shape st
      exact phaseInv_trans (phaseInv_board hb) (phaseInv_fill o _)
    split at h4
    · rw [Option.some_inj] at h4; subst h4; exact hfill
    · exact phaseInv_trans hfill (processMatches_inv o fuel _ _ _ _ h4)

theorem normalSwapPath_some (o : Oracle) (fuel : Nat) (st : EngineState)
    (a b : Pos) (res : EngineState)
    (h : normalSwapPath o fuel st a b = some res) :
    ∃ st4, phaseInv st st4 ∧ finishResolution st4 = some res := by
  unfold normalSwapPath at h
  split at h
  · exact absurd h (by simp)
  · rename_i st2 h2
    refine ⟨st2, ?_, h⟩
    split at h2
    · rw [Option.some_inj] at h2; subst h2; exact phaseInv_board rfl
    · exact phaseInv_trans
        (phaseInv_trans (phaseInv_board rfl) (phaseInv_resetCombo _))
        (processMatches_inv o fuel _ _ _ _ h2)

theorem bombSwapPath_some (o : Oracle) (fuel : Nat) (st : EngineState)
    (a b : Pos) (x y : Bool) (res : EngineState)
    (h : bombSwapPath o fuel st a b x y = some res) :
    ∃ st4, phaseInv st st4 ∧ finishResolution st4 = some res := by
  unfold bombSwapPath at h
  split at h
  · exact absurd h (by simp)
  · rename_i st2 h2
    obtain ⟨st4, hinv, hfin⟩ := afterBombPath_some o fuel st2 res h
    refine ⟨st4, phaseInv_trans ?_ hinv, hfin⟩
    have hswap : phaseInv st (resetCombo { st with board := swapB st.board a b }) :=
      phaseInv_trans (phaseInv_board rfl) (phaseInv_resetCombo _)
    split at h2
    · rw [Option.some_inj] at h2; subst h2
      exact phaseInv_trans hswap (phaseInv_detonateEntireBoard _)
    · split at h2
      · split at h2
        · rw [Option.some_inj] at h2; subst h2
          exact phaseInv_trans hswap
            (phaseInv_trans (phaseInv_destroySingle _ _) (phaseInv_destroySingle _ _))
        · split at h2
          · exact absurd h2 (by simp)
          · rename_i s hdet
            rw [Option.some_inj] at h2; subst h2
            exact phaseInv_trans hswap
              (phaseInv_trans (detonate_inv o fuel _ _ _ hdet)
                (phaseInv_destroySingle _ _))
      · exact absurd h2 (by simp)

/-- Every completed `onSwapRequest` run on a non-busy controller either
rejects at once (empty-cell request) or reaches the move validator with
a state that satisfies the phase invariant. -/
theorem onSwapRequest_cases (o : Oracle) (fuel : Nat) (st : EngineState)
    (req : Pos × Pos) (res : EngineState)
    (hbusy : st.busy = false)
    (h : onSwapRequest o fuel st req = some res) :
    res = reEnable { st with busy := true, inputEnabled := false } ∨
    ∃ st4, phaseInv { st with busy := true, inputEnabled := false } st4 ∧
      finishResolution st4 = some res := by
  unfold onSwapRequest at h
  rw [if_neg (by simp [hbusy])] at h
  split at h
  · exact absurd h (by simp)
  · split at h
    · rw [Option.some_inj] at h; exact Or.inl h.symm
    · rw [Option.some_inj] at h; exact Or.inl h.symm
    · split at h
      · exact Or.inr (bombSwapPath_some o fuel _ req.1 req.2 _ _ res h)
      · exact Or.inr (normalSwapPath_some o fuel _ req.1 req.2 res h)

/-- C10: the score is monotonically non-decreasing: `addMatch` adds
exactly `matchPoints` (a `Nat`, hence non-negative), `resetCombo` keeps
the score, and every completed `onSwapRequest` run ends with a score at
least the starting score. -/
theorem score_monotone (st : EngineState) (n : Nat) :
    (addMatch st n).score = st.score + matchPoints n st.combo ∧
    (resetCombo st).score = st.score ∧
    ∀ (o : Oracle) (fuel : Nat) (req : Pos × Pos) (res : EngineState),
      onSwapRequest o fuel st req = some res → st.score ≤ res.score := by
  refine ⟨rfl, rfl, ?_⟩
  intro o fuel req res h
  by_cases hbusy : st.busy = true
  · unfold onSwapRequest at h
    rw [if_pos hbusy] at h
    rw [Option.some_inj] at h; subst h; exact le_refl _
  · rcases onSwapRequest_cases o fuel st req res (by simpa using hbusy) h with
      hre | ⟨st4, hinv, hfin⟩
    · rw [hre]; exact le_refl _
    · obtain ⟨hsc, -, -⟩ := finishResolution_fields st4 res hfin
      rw [hsc]
      exact hinv.1

/-- C1 (amended): the game-over flag is set only by the stalemate
branch of the move validator, which leaves the controller halted: busy
still set, input still disabled, and the final board without a valid
move.  (No reshuffle happens; `reshuffleBoard` is never invoked.) -/
theorem onSwapRequest_stalemate_flags (o : Oracle) (fuel : Nat)
    (st : EngineState) (req : Pos × Pos) (res : EngineState)
    (hbusy : st.busy = false) (hgo : st.gameOver = false)
    (h : onSwapRequest o fuel st req = some res)
    (hres : res.gameOver = true) :
    res.busy = true ∧ res.inputEnabled = false ∧
      hasValidMoves (buildMatchableGrid res.board) = false := by
  rcases onSwapRequest_cases o fuel st req res hbusy h with hre | ⟨st4, hinv, hfin⟩
  · exfalso
    rw [hre] at hres
    have h5 : st.gameOver = true := hres
    rw [hgo] at h5
    exact Bool.false_ne_true h5
  · rcases finishResolution_cases st4 res hfin with ⟨hnv, hr⟩ | ⟨hv, hr⟩
    · subst hr
      refine ⟨?_, ?_, hnv⟩
      · show st4.busy = true
        rw [hinv.2.1]
      · show st4.inputEnabled = false
        rw [hinv.2.2.1]
    · exfalso
      rw [hr] at hres
      have h4 : st4.gameOver = true := hres
      rw [hinv.2.2.2] at h4
      have h5 : st.gameOver = true := h4
      rw [hgo] at h5
      exact Bool.false_ne_true h5

theorem normalSwapPath_nomatch (o : Oracle) (fuel : Nat) (st : EngineState)
    (a b : Pos)
    (hnomatch : findMatches (buildMatchableGrid (swapB st.board a b)) = []) :
    normalSwapPath o fuel st a b =
      finishResolution { st with board := swapB (swapB st.board a b) a b } := by
  unfold normalSwapPath
  rw [if_pos hnomatch]

/-- C3: an accepted swap of two occupied cells (neither a Color Bomb)
whose application produces zero match groups reverts exactly: every
cell of the final grid equals the corresponding cell before the swap,
the score is unchanged, and the combo level is untouched. -/
theorem failed_swap_reverts (o : Oracle) (fuel : Nat) (st : EngineState)
    (a b : Pos) (res : EngineState)
    (hbusy : st.busy = false)
    (ha : boardRead st.board a.1 a.2 ≠ none)
    (hb : boardRead st.board b.1 b.2 ≠ none)
    (hA : gval st.board a.1 a.2 ≠ some TileType.colorBomb)
    (hB : gval st.board b.1 b.2 ≠ some TileType.colorBomb)
    (hnomatch : findMatches (buildMatchableGrid (swapB st.board a b)) = [])
    (h : onSwapRequest o fuel st (a, b) = some res) :
    (∀ i j, boardRead res.board i j = boardRead st.board i j) ∧
    res.score = st.score ∧ res.combo = st.combo := by
  unfold onSwapRequest at h
  rw [if_neg (by simp [hbusy])] at h
  split at h
  · exact absurd h (by simp)
  · split at h
    · exfalso; exact ha (by assumption)
    · exfalso; exact hb (by assumption)
    · rename_i tA tB heqA heqB
      split at h
      · rename_i hcb
        exfalso
        rcases (by simpa using hcb : tA.ttype = TileType.colorBomb ∨
            tB.ttype = TileType.colorBomb) with hx | hx
        · exact hA (by simp [gval, heqA, hx])
        · exact hB (by simp [gval, heqB, hx])
      · have h' : normalSwapPath o fuel
            { st with busy := true, inputEnabled := false } a b = some res := h
        have hnm' : findMatches (buildMatchableGrid
            (swapB ({ st with busy := true, inputEnabled := false } :
              EngineState).board a b)) = [] := hnomatch
        rw [normalSwapPath_nomatch o fuel
          { st with busy := true, inputEnabled := false } a b hnm'] at h'
        obtain ⟨hsc, hbd, hcmb⟩ := finishResolution_fields _ res h'
        refine ⟨?_, hsc, hcmb⟩
        intro i j
        rw [hbd]
        exact boardRead_swapB_swapB st.board a b ha hb i j

end VBall
namespace VBall
open TileType Direction

/-! ## Bomb-count bookkeeping for the chain detonation (C9). -/

/-- Clearing a cell to `none` is described pointwise without any bounds
side condition: an out-of-range `setCell` is a no-op and the
corresponding read is already `none`. -/
theorem boardRead_setCell_none (b : BGrid) (r c i j : Nat) :
    boardRead (setCell b r c none) i j =
      if i = r ∧ j = c then none else boardRead b i j := by
  by_cases hr : r < b.length
  · by_cases hc : c < (b.getD r []).length
    · exact boardRead_setCell b r c none hr hc i j
    · have hrow : (b.getD r []).set c none = b.getD r [] :=
        List.set_eq_of_length_le (by omega)
      have hcell : setCell b r c none = b.set r (b.getD r []) := by
        unfold setCell; rw [hrow]
      have hread : ∀ n m : Nat, boardRead (setCell b r c none) n m = boardRead b n m := by
        intro n m
        rw [hcell]
        unfold boardRead
        by_cases hn : n = r
        · subst hn
          have h1 : (b.set n (b.getD n [])).getD n [] = b.getD n [] := by
            rw [List.getD_eq_getElem?_getD, List.getElem?_set_eq_of_lt _ hr]
            rfl
          rw [h1]
        · have h1 : (b.set r (b.getD r [])).getD n [] = b.getD n [] := by
            rw [List.getD_eq_getElem?_getD, List.getElem?_set_ne (by omega),
              ← List.getD_eq_getElem?_getD]
          rw [h1]
      rw [hread]
      by_cases hij : i = r ∧ j = c
      · rw [if_pos hij]
        obtain ⟨rfl, rfl⟩ := hij
        unfold boardRead
        rw [List.getD_eq_default (b.getD i []) none (by omega)]
      · rw [if_neg hij]
  · have hcell : setCell b r c none = b := by
      unfold setCell
      exact List.set_eq_of_length_le (by omega)
    rw [hcell]
    by_cases hij : i = r ∧ j = c
    · rw [if_pos hij]
      obtain ⟨rfl, rfl⟩ := hij
      unfold boardRead
      rw [List.getD_eq_default b [] (by omega)]
      rw [List.getD_eq_default [] none (by simp)]
    · rw [if_neg hij]

theorem isBombAt_setCell_none (b : BGrid) (r c : Nat) (q : Pos) :
    isBombAt (setCell b r c none) q =
      if q.1 = r ∧ q.2 = c then false else isBombAt b q := by
  unfold isBombAt
  rw [boardRead_setCell_none]
  by_cases h : q.1 = r ∧ q.2 = c
  · rw [if_pos h, if_pos h]
  · rw [if_neg h, if_neg h]

theorem allCells_nodup : allCells.Nodup := by decide

/-- A strict count decrease: one element satisfies `p` but not `q`, and
the two predicates agree on every other element. -/
theorem countP_lt_of_mem {p q : Pos → Bool} (x : Pos) (hpx : p x = true)
    (hqx : q x = false) :
    ∀ l : List Pos, x ∈ l → l.Nodup →
      (∀ y ∈ l, y ≠ x → q y = p y) → l.countP q < l.countP p := by
  intro l
  induction l with
  | nil => intro hmem _ _; cases hmem
  | cons a as ih =>
      intro hmem hnd hagree
      rw [List.countP_cons, List.countP_cons]
      rcases List.mem_cons.mp hmem with rfl | hmem'
      · rw [hpx, hqx]
        have heq : as.countP q = as.countP p :=
          List.countP_congr fun y hy => by
            rw [hagree y (List.mem_cons_of_mem _ hy)
              (fun he => (List.nodup_cons.mp hnd).1 (he ▸ hy))]
        simp [heq]
      · have hxa : a ≠ x := fun he => (List.nodup_cons.mp hnd).1 (he ▸ hmem')
        have hqa : q a = p a := hagree a (List.mem_cons_self a as) hxa
        have ih' := ih hmem' (List.nodup_cons.mp hnd).2
          (fun y hy hne => hagree y (List.mem_cons_of_mem _ hy) hne)
        rw [hqa]
        exact Nat.add_lt_add_right ih' _

theorem clearIfNotBomb_isBombAt (s : EngineState) (t q : Pos) :
    isBombAt ((clearIfNotBomb s t).board) q = isBombAt s.board q := by
  cases hbr : boardRead s.board t.1 t.2 with
  | none =>
      have he : clearIfNotBomb s t = s := by
        unfold clearIfNotBomb; rw [hbr]
      rw [he]
  | some tt =>
      have he : clearIfNotBomb s t =
          if tt.ttype ≠ TileType.lineBomb ∧ tt.ttype ≠ TileType.colorBomb then
            clearCellAt s t.1 t.2
          else s := by
        unfold clearIfNotBomb; rw [hbr]
      rw [he]
      by_cases hno : tt.ttype ≠ TileType.lineBomb ∧ tt.ttype ≠ TileType.colorBomb
      · rw [if_pos hno]
        show isBombAt (setCell s.board t.1 t.2 none) q = _
        rw [isBombAt_setCell_none]
        by_cases hq : q.1 = t.1 ∧ q.2 = t.2
        · rw [if_pos hq]
          have hqt : q = t := Prod.ext hq.1 hq.2
          subst hqt
          simp [isBombAt, hbr, hno.1, hno.2]
        · rw [if_neg hq]
      · rw [if_neg hno]

/-- The destruction sweep never changes the number of bombs: only
non-bomb cells are cleared. -/
theorem foldl_clearIfNotBomb_bombCount (l : List Pos) (s : EngineState) :
    bombCount ((l.foldl clearIfNotBomb s).board) = bombCount s.board := by
  induction l generalizing s with
  | nil => rfl
  | cons x xs ih =>
      rw [List.foldl_cons, ih]
      unfold bombCount
      exact List.countP_congr fun q hq => by rw [clearIfNotBomb_isBombAt s x q]

theorem bombCount_clearBomb (st : EngineState) (pos : Pos)
    (hmem : pos ∈ allCells) (hbomb : isBombAt st.board pos = true) :
    bombCount (setCell st.board pos.1 pos.2 none) < bombCount st.board := by
  unfold bombCount
  refine countP_lt_of_mem pos hbomb ?_ allCells hmem allCells_nodup ?_
  · rw [isBombAt_setCell_none]
    simp
  · intro y hy hne
    rw [isBombAt_setCell_none]
    rw [if_neg]
    intro ⟨e1, e2⟩
    exact hne (Prod.ext e1 e2)

end VBall
namespace VBall
open TileType Direction

/-- C9 (amended): termination bookkeeping of the chain detonation.  On
any state: (i) the clearing phase of a line-bomb detonation (destroy
the bomb cell, award the flat bonus, sweep any target list with
`clearIfNotBomb`) hands the chain loop a board with strictly fewer
bombs; (ii) a color-bomb detonation aimed at a regular color catches no
bomb in its destruction set, so it triggers no chain; and (iii) a
completed color-bomb detonation removes no bomb at all -- in particular
not the triggering bomb, which its caller must destroy separately. -/
theorem detonation_bomb_count (o : Oracle) (st : EngineState) (pos : Pos)
    (targetType : TileType)
    (hmem : pos ∈ allCells)
    (hbomb : isBombAt st.board pos = true)
    (hreg : targetType ≠ TileType.lineBomb ∧ targetType ≠ TileType.colorBomb) :
    (∀ targets : List Pos,
      bombCount ((targets.foldl clearIfNotBomb
        (addMatch (clearCellAt st pos.1 pos.2) LINE_BOMB_BONUS)).board) <
          bombCount st.board) ∧
    ((allCells.filter fun p => gval st.board p.1 p.2 == some targetType).filter
        (fun t => isBombAt st.board t)) = [] ∧
    (∀ res, detonateColorBomb o 2 st targetType (some pos) = some res →
      bombCount res.board = bombCount st.board) := by
  have hfilter : ((allCells.filter fun p =>
      gval st.board p.1 p.2 == some targetType).filter
        (fun t => isBombAt st.board t)) = [] := by
    rw [List.filter_eq_nil_iff]
    intro t ht hbt
    obtain ⟨-, htv⟩ := List.mem_filter.mp ht
    have hg : gval st.board t.1 t.2 = some targetType := eq_of_beq htv
    unfold gval at hg
    unfold isBombAt at hbt
    cases hbr : boardRead st.board t.1 t.2 with
    | none => rw [hbr] at hbt; exact absurd hbt (by simp)
    | some tt =>
        rw [hbr] at hbt hg
        have htt : tt.ttype = targetType := by simpa using hg
        rcases (by simpa using hbt :
            tt.ttype = TileType.lineBomb ∨ tt.ttype = TileType.colorBomb) with hx | hx
        · exact hreg.1 (htt.symm.trans hx)
        · exact hreg.2 (htt.symm.trans hx)
  refine ⟨?_, hfilter, ?_⟩
  · intro targets
    rw [foldl_clearIfNotBomb_bombCount]
    show bombCount (setCell st.board pos.1 pos.2 none) < bombCount st.board
    exact bombCount_clearBomb st pos hmem hbomb
  · intro res hres
    unfold detonateColorBomb at hres
    have h2 : (2 : Nat) = 1 + 1 := rfl
    rw [h2, detonate] at hres
    have hres' :
        (if (allCells.filter fun p => gval st.board p.1 p.2 == some targetType) = [] then
          some st
        else
          detonate o 1 (DetJob.chain
            ((allCells.filter fun p => gval st.board p.1 p.2 == some targetType).filter
              (fun t => isBombAt (addMatch st
                ((allCells.filter fun p =>
                  gval st.board p.1 p.2 == some targetType).length +
                  COLOR_BOMB_BONUS)).board t)))
            ((allCells.filter fun p => gval st.board p.1 p.2 == some targetType).foldl
              clearIfNotBomb
              (addMatch st
                ((allCells.filter fun p =>
                  gval st.board p.1 p.2 == some targetType).length +
                  COLOR_BOMB_BONUS)))) = some res := hres
    have hfilter' :
        ((allCells.filter fun p => gval st.board p.1 p.2 == some targetType).filter
          (fun t => isBombAt (addMatch st
            ((allCells.filter fun p =>
              gval st.board p.1 p.2 == some targetType).length +
              COLOR_BOMB_BONUS)).board t)) = [] := hfilter
    rw [hfilter'] at hres'
    split at hres'
    · rw [Option.some_inj] at hres'
      subst hres'
      rfl
    · have h1 : (1 : Nat) = 0 + 1 := rfl
      rw [h1, detonate] at hres'
      rw [Option.some_inj] at hres'
      subst hres'
      rw [foldl_clearIfNotBomb_bombCount]
      rfl

end VBall

namespace VBall
open TileType Direction

theorem detonation_bomb_count_witness :
    bombCount ((List.foldl clearIfNotBomb
        (addMatch (clearCellAt (initState boardC9) 0 0) LINE_BOMB_BONUS)
        []).board) < bombCount (initState boardC9).board ∧
    bombCount (⟨resultBoardC9, 650, 1, 0, false, true, false⟩ : EngineState).board =
      bombCount (initState boardC9).board :=
  (fun H => ⟨H.1 [], H.2.2 ⟨resultBoardC9, 650, 1, 0, false, true, false⟩ (by decide)⟩)
    (detonation_bomb_count oracle0 (initState boardC9) (0, 0) TileType.red
      (by decide) (by decide) (by decide))

end VBall
namespace VBall
open TileType Direction

/-! ## The move-validator characterization (C2, amended). -/

theorem readT_oob_col (g : TGrid) (r c : Nat) (h : ¬ c < GRID_COLS) :
    readT g r c = none := by
  unfold readT
  rw [if_neg]
  intro hx
  exact h hx.2

theorem readT_oob_row (g : TGrid) (r c : Nat) (h : ¬ r < GRID_ROWS) :
    readT g r c = none := by
  unfold readT
  rw [if_neg]
  intro hx
  exact h hx.1

/-- The scan body of `hasValidMoves` splits into the Color-Bomb clause
and the probe clause of the (amended) contract. -/
theorem cellCheck_split (g : TGrid) (r c : Nat) :
    cellCheck g r c =
      ((readT g r c == some TileType.colorBomb &&
        (!(readT g r (c+1) == none) || !(readT g (r+1) c == none) ||
         (decide (1 ≤ c) && !(readT g r (c-1) == none)) ||
         (decide (1 ≤ r) && !(readT g (r-1) c == none)))) ||
       (if readT g r c == some TileType.colorBomb then false
        else if decide (c + 1 < GRID_COLS) &&
            (readT g r (c + 1) == some TileType.colorBomb) then false
        else
          (decide (c + 1 < GRID_COLS) &&
            !(findMatches (swap g r c r (c + 1)) == [])) ||
          (decide (r + 1 < GRID_ROWS) &&
            !(readT g (r + 1) c == some TileType.colorBomb) &&
            !(findMatches (swap g r c (r + 1) c) == [])))) := by
  unfold cellCheck
  by_cases h1 : (readT g r c == some TileType.colorBomb) = true
  · rw [if_pos h1, if_pos h1, h1]
    simp only [Bool.true_and, Bool.or_false]
    by_cases hcb : c + 1 < GRID_COLS
    · by_cases hrb : r + 1 < GRID_ROWS
      · simp [hcb, hrb]
      · simp [hcb, hrb, readT_oob_row g (r+1) c hrb]
    · by_cases hrb : r + 1 < GRID_ROWS
      · simp [hcb, hrb, readT_oob_col g r (c+1) hcb]
      · simp [hcb, hrb, readT_oob_col g r (c+1) hcb, readT_oob_row g (r+1) c hrb]
  · rw [if_neg h1, if_neg h1]
    have h1' : (readT g r c == some TileType.colorBomb) = false := by
      simpa using h1
    rw [h1', Bool.false_and, Bool.false_or]

/-- `List.any` distributes over a pointwise disjunction. -/
theorem any_or_distrib {α : Type} (l : List α) (f h : α → Bool) :
    l.any (fun x => f x || h x) = (l.any f || l.any h) := by
  induction l with
  | nil => rfl
  | cons x xs ih =>
      simp only [List.any_cons, ih]
      cases f x <;> cases h x <;> cases xs.any f <;> cases xs.any h <;> rfl

/-- `hasValidMoves` is the disjunction of the two (amended) clauses. -/
theorem hasValidMoves_or (g : TGrid) :
    hasValidMoves g = (specColorBombAdjacent g || specProbedSwapFindsMatch g) :=
  calc hasValidMoves g
      = allCells.any (fun p =>
          ((readT g p.1 p.2 == some TileType.colorBomb &&
            (!(readT g p.1 (p.2+1) == none) || !(readT g (p.1+1) p.2 == none) ||
             (decide (1 ≤ p.2) && !(readT g p.1 (p.2-1) == none)) ||
             (decide (1 ≤ p.1) && !(readT g (p.1-1) p.2 == none)))) ||
           (if readT g p.1 p.2 == some TileType.colorBomb then false
            else if decide (p.2 + 1 < GRID_COLS) &&
                (readT g p.1 (p.2 + 1) == some TileType.colorBomb) then false
            else
              (decide (p.2 + 1 < GRID_COLS) &&
                !(findMatches (swap g p.1 p.2 p.1 (p.2 + 1)) == [])) ||
              (decide (p.1 + 1 < GRID_ROWS) &&
                !(readT g (p.1 + 1) p.2 == some TileType.colorBomb) &&
                !(findMatches (swap g p.1 p.2 (p.1 + 1) p.2) == []))))) :=
        congrArg (List.any allCells) (funext fun p => cellCheck_split g p.1 p.2)
    _ = (specColorBombAdjacent g || specProbedSwapFindsMatch g) :=
        any_or_distrib allCells _ _

/-- C2 (amended): `hasValidMoves` returns false iff no cell holds a
Color Bomb orthogonally adjacent to a non-empty cell AND no PROBED
adjacent swap yields a match group -- where the scan's probes never
involve a Color Bomb cell and additionally skip the down-probe of any
cell whose right neighbor is a Color Bomb. -/
theorem hasValidMoves_iff (g : TGrid) :
    hasValidMoves g = false ↔
      specColorBombAdjacent g = false ∧ specProbedSwapFindsMatch g = false := by
  rw [hasValidMoves_or]
  cases hx : specColorBombAdjacent g <;> cases hy : specProbedSwapFindsMatch g <;> simp

end VBall
namespace VBall
open TileType Direction

/-! ## Concrete instantiations of the conditional theorems. -/

theorem score_monotone_witness :
    (initState boardC8).score ≤
      (⟨resultBoardC8, 4 * POINTS_PER_TILE, 1, 3, false, true, false⟩ :
        EngineState).score :=
  (score_monotone (initState boardC8) 0).2.2 oracleC8 9 ((3, 6), (3, 5))
    ⟨resultBoardC8, 4 * POINTS_PER_TILE, 1, 3, false, true, false⟩ (by decide)

theorem stalemate_flags_witness :
    (⟨staleBoard, 640, 1, 64, true, false, true⟩ : EngineState).busy = true ∧
    (⟨staleBoard, 640, 1, 64, true, false, true⟩ : EngineState).inputEnabled = false ∧
    hasValidMoves (buildMatchableGrid
      (⟨staleBoard, 640, 1, 64, true, false, true⟩ : EngineState).board) = false :=
  onSwapRequest_stalemate_flags oracleC1 9 (initState boardC1) ((0, 0), (0, 1))
    ⟨staleBoard, 640, 1, 64, true, false, true⟩ rfl rfl (by decide) rfl

theorem failed_swap_reverts_witness :
    boardRead (⟨boardC3, 0, 0, 0, false, true, false⟩ : EngineState).board 6 0 =
      boardRead (initState boardC3).board 6 0 ∧
    (⟨boardC3, 0, 0, 0, false, true, false⟩ : EngineState).score =
      (initState boardC3).score ∧
    (⟨boardC3, 0, 0, 0, false, true, false⟩ : EngineState).combo =
      (initState boardC3).combo := by
  obtain ⟨hb, hs, hc⟩ := failed_swap_reverts oracle0 9 (initState boardC3)
    (6, 0) (7, 0) ⟨boardC3, 0, 0, 0, false, true, false⟩
    rfl (by decide) (by decide) (by decide) (by decide) (by decide) (by decide)
  exact ⟨hb 6 0, hs, hc⟩

theorem emptyCell_request_rejected_witness :
    onSwapRequest oracle0 9 (initState resultBoardC4) ((5, 0), (5, 1)) =
      some { initState resultBoardC4 with busy := false, inputEnabled := true } :=
  emptyCell_request_rejected oracle0 9 (initState resultBoardC4) (5, 0) (5, 1)
    rfl (by decide) (by decide) (Or.inl (by decide))

theorem detonateLineBomb_score_witness :
    (⟨resultBoardC4, 200, 1, 0, false, true, false⟩ : EngineState).score =
      (initState boardC4).score +
        matchPoints LINE_BOMB_BONUS (initState boardC4).combo ∧
    (⟨resultBoardC4, 200, 1, 0, false, true, false⟩ : EngineState).combo =
      (initState boardC4).combo + 1 := by
  obtain ⟨res, heq, hs, hc⟩ := detonateLineBomb_score oracle0 0 (initState boardC4)
    (5, 0) (by decide) (by decide) (by decide)
  have he : res = ⟨resultBoardC4, 200, 1, 0, false, true, false⟩ :=
    Option.some_inj.mp (heq.symm.trans (by decide))
  exact ⟨he ▸ hs, he ▸ hc⟩

end VBall

namespace VBall
open TileType Direction

/-! ## Concrete-run theorems (counterexamples and scenario checks). -/

/-- C2 counterexample: `hasValidMoves` returns false on `cexGrid2` even
though an adjacent swap does produce a match group (clause (a) of the
claimed iff is violated; clause (b) holds). -/
theorem hasValidMoves_skip_counterexample :
    hasValidMoves cexGrid2 = false ∧
    specAdjacentSwapFindsMatch cexGrid2 = true ∧
    specColorBombAdjacent cexGrid2 = false ∧
    findMatches (swap cexGrid2 2 2 3 2) =
      [⟨[(2,0), (2,1), (2,2)], 3, horizontal⟩] := by decide

/-- C1 counterexample: a completed resolution (double-color-bomb swap,
refilled into the stale block pattern) ends with no valid move, and the
engine does NOT reshuffle and return to Idle: it sets the game-over
flag and leaves the busy flag set with input disabled. -/
theorem stalemate_gameOver_counterexample :
    onSwapRequest oracleC1 9 (initState boardC1) ((0,0),(0,1)) =
      some ⟨staleBoard, 640, 1, 64, true, false, true⟩ ∧
    hasValidMoves (buildMatchableGrid staleBoard) = false := by decide

/-- C4 counterexample: the line bomb at (5,0) destroys 8 cells (itself
plus its full row) but the score awarded is `matchPoints 20 0 = 200`,
not per-tile points for the destroyed cells plus the flat bonus. -/
theorem lineBomb_score_counterexample :
    detonateLineBomb oracle0 9 (initState boardC4) (5,0) =
      some ⟨resultBoardC4, 200, 1, 0, false, true, false⟩ ∧
    allCells.countP
      (fun p => boardRead boardC4 p.1 p.2 ≠ none ∧
        boardRead resultBoardC4 p.1 p.2 = none) = 8 ∧
    specLineBombScore 8 ≠ 200 ∧ specLineBombScore 7 ≠ 200 := by decide

/-- C9 counterexample: a color bomb detonation targeting red destroys
the red cells but removes no bomb -- the triggering color bomb is still
on the board afterwards (its caller removes it separately). -/
theorem colorBomb_detonation_keeps_bomb_counterexample :
    detonateColorBomb oracle0 9 (initState boardC9) red (some (0,0)) =
      some ⟨resultBoardC9, 650, 1, 0, false, true, false⟩ ∧
    bombCount boardC9 = 1 ∧ bombCount resultBoardC9 = 1 := by decide

/-- C5 counterexample: a NON-adjacent request on two occupied in-bounds
cells is not rejected: the handler applies it as a normal swap, the
match resolves, and grid and score are both mutated. -/
theorem nonAdjacent_swap_processed_counterexample :
    isAdjacent (0,4) (2,4) = false ∧
    onSwapRequest oracleC5 9 (initState boardC5) ((0,4),(2,4)) =
      some ⟨resultBoardC5, 30, 1, 3, false, true, false⟩ ∧
    resultBoardC5 ≠ boardC5 ∧ (30 : Nat) ≠ 0 := by decide

/-- C8 scenario: the swap (3,6)-(3,5) on `boardC8` produces exactly one
match group (row 3, cols 2-5, length 4), the resolution spawns a
horizontal red-based Line Bomb at the swap destination (3,5), and ends
with combo level 1 and score `4 * POINTS_PER_TILE`. -/
theorem scenario_four_run_line_bomb :
    findMatches (buildMatchableGrid (swapB boardC8 (3,6) (3,5))) =
      [⟨[(3,2), (3,3), (3,4), (3,5)], 4, horizontal⟩] ∧
    onSwapRequest oracleC8 9 (initState boardC8) ((3,6),(3,5)) =
      some ⟨resultBoardC8, 4 * POINTS_PER_TILE, 1, 3, false, true, false⟩ ∧
    boardRead resultBoardC8 3 5 = lbT horizontal red := by decide

end VBall
